import Mathlib

/-!
Verification of the LLM-orchestrator repository (orchestrator, sandbox
manager/client/endpoint).  Python functions from `src/app` are embedded as
executable Lean definitions over a JSON-like value type; claims from the
specification are then proved or refuted against these definitions.

Conventions of the embedding:
* Python `dict`s become ordered association lists (`VDict`), Python `list`s
  become `VList`; JSON `null`/`None` is `Val.vnull`.
* Python `str` methods (`strip`, `lower`, `isdigit`, …) are modelled for
  ASCII text, which covers every string the orchestrator manipulates here.
* A Python float value is carried as its source lexeme (`Val.vfloat lit`);
  no claim compares two floats obtained from different lexemes.
* Exceptions are modelled by `Except String`; external effects (docker,
  ssh, the LLM, the registry) are oracles supplied as explicit arguments.
-/

namespace LlmOrch

/-! ## Character and string utilities (ASCII models of Python behaviour) -/

/-- Python whitespace characters recognised by `str.strip()` and `\s`. -/
def isPyWS (c : Char) : Bool :=
  c = ' ' || c = '\t' || c = '\n' || c = '\x0d' || c = '\x0b' || c = '\x0c'

/-- ASCII decimal digit test (model of `str.isdigit` on ASCII text). -/
def isAsciiDigit (c : Char) : Bool :=
  '0' ≤ c && c ≤ '9'

/-- ASCII lower-casing of one character (model of `str.lower`). -/
def lowerChar (c : Char) : Char :=
  if 'A' ≤ c && c ≤ 'Z' then Char.ofNat (c.toNat + 32) else c

/-- ASCII lower-casing of a character list. -/
def lowerL (l : List Char) : List Char :=
  l.map lowerChar

/-- Characters allowed in a module name by the import regex `[a-zA-Z0-9_.]`. -/
def isModChar (c : Char) : Bool :=
  ('a' ≤ c && c ≤ 'z') || ('A' ≤ c && c ≤ 'Z') || isAsciiDigit c || c = '_' || c = '.'

/-- Characters of the base64 class `[A-Za-z0-9+/=]` used by the image regex. -/
def isB64Char (c : Char) : Bool :=
  ('a' ≤ c && c ≤ 'z') || ('A' ≤ c && c ≤ 'Z') || isAsciiDigit c || c = '+' || c = '/' || c = '='

/-- Python `str.strip()` on a character list. -/
def stripL (l : List Char) : List Char :=
  ((l.dropWhile isPyWS).reverse.dropWhile isPyWS).reverse

/-- Python `str.strip(chars)` for a single strip character. -/
def stripCharL (c : Char) (l : List Char) : List Char :=
  ((l.dropWhile (· = c)).reverse.dropWhile (· = c)).reverse

/-- Python `str.strip()` on a string. -/
def pyStrip (s : String) : String :=
  ⟨stripL s.data⟩

/-- ASCII lower-casing of a string (model of `str.lower`). -/
def lowerStr (s : String) : String :=
  ⟨lowerL s.data⟩

/-- Test whether `pat` occurs at the head of `s` (case-sensitive). -/
def headIs : List Char → List Char → Bool
  | [], _ => true
  | _ :: _, [] => false
  | p :: ps, c :: cs => p = c && headIs ps cs

/-- Test whether `pat` (given lower-cased) occurs at the head of `s`,
comparing case-insensitively; on success return the remainder of `s`. -/
def headIsCI : List Char → List Char → Option (List Char)
  | [], s => some s
  | _ :: _, [] => none
  | p :: ps, c :: cs => if lowerChar c = p then headIsCI ps cs else none

/-- Substring search: does `pat` occur anywhere in `s` (case-sensitive)? -/
def containsSeq (pat : List Char) : List Char → Bool
  | [] => headIs pat []
  | c :: cs => headIs pat (c :: cs) || containsSeq pat cs

/-- Model of the regex fragment `a\s+b`: after `a`, one or more whitespace
characters, then `b`, somewhere in the scanned text. -/
def wsThenCont (b : List Char) : List Char → Bool
  | [] => headIs b []
  | c :: cs => headIs b (c :: cs) || (isPyWS c && wsThenCont b cs)

/-- Helper for `matchAWSB`: after `a` matched, require at least one
whitespace character and then `b` after some of the whitespace run. -/
def wsThen (b : List Char) : List Char → Bool
  | [] => false
  | c :: cs => isPyWS c && wsThenCont b cs

/-- Search for `a` followed by `\s+` followed by `b` anywhere in `s`. -/
def matchAWSB (a b : List Char) : List Char → Bool
  | [] => false
  | c :: cs =>
      (match headIsCI a (c :: cs) with
       | some rest => wsThen b rest
       | none => false)
      || matchAWSB a b cs

/-- Split a character list at every newline, like iterating the lines of a
string for a `re.MULTILINE` anchored scan. -/
def splitNL : List Char → List (List Char)
  | [] => [[]]
  | c :: cs =>
      if c = '\n' then [] :: splitNL cs
      else
        match splitNL cs with
        | l :: ls => (c :: l) :: ls
        | [] => [[c]]

/-- Python `str.splitlines()` restricted to the terminators `\r\n`, `\n`,
`\r` (the ones that can occur in this code base). -/
def splitLinesPy : List Char → List (List Char)
  | [] => []
  | '\x0d' :: '\n' :: cs => [] :: splitLinesPy cs
  | c :: cs =>
      if c = '\n' || c = '\x0d' then [] :: splitLinesPy cs
      else
        match splitLinesPy cs with
        | l :: ls => (c :: l) :: ls
        | [] => [[c]]

/-- Python `str.split(sep)` for a one-character separator, keeping empty
pieces (used for `raw_args.split(",")`). -/
def splitOnChar (sep : Char) : List Char → List (List Char)
  | [] => [[]]
  | c :: cs =>
      if c = sep then [] :: splitOnChar sep cs
      else
        match splitOnChar sep cs with
        | l :: ls => (c :: l) :: ls
        | [] => [[c]]

/-- Python `s.split(sep, 1)` for a one-character separator: split at the
first occurrence only; `none` when the separator does not occur. -/
def splitOnce (sep : Char) : List Char → Option (List Char × List Char)
  | [] => none
  | c :: cs =>
      if c = sep then some ([], cs)
      else
        match splitOnce sep cs with
        | some (a, b) => some (c :: a, b)
        | none => none

/-- Numeric value of an ASCII digit list (model of Python `int` on an
all-digit string; leading zeros are allowed, as in Python). -/
def digitsToNat : List Char → Nat
  | [] => 0
  | c :: cs => digitsToNat cs + c.toNat * 10 ^ cs.length - 48 * 10 ^ cs.length

/-- Model of `str.isdigit()` for ASCII text: non-empty and all digits. -/
def isDigitsL (l : List Char) : Bool :=
  !l.isEmpty && l.all isAsciiDigit

/-! ## JSON-like values (the payloads the orchestrator manipulates) -/

mutual
/-- A Python/JSON value as handled by the orchestrator.  Floats carry the
lexeme they were obtained from (no claim depends on float arithmetic). -/
inductive Val where
  | vnull : Val
  | vbool : Bool → Val
  | vint : Int → Val
  | vfloat : String → Val
  | vstr : String → Val
  | vlist : VList → Val
  | vdict : VDict → Val

/-- A Python list of values. -/
inductive VList where
  | nil : VList
  | cons : Val → VList → VList

/-- A Python dict: ordered association list with string keys. -/
inductive VDict where
  | nil : VDict
  | cons : String → Val → VDict → VDict
end

/-- Membership of a value in a `VList`. -/
def VList.mem (x : Val) : VList → Prop
  | .nil => False
  | .cons v tl => x = v ∨ VList.mem x tl

/-- Membership of a key/value entry in a `VDict`. -/
def VDict.memEntry (k : String) (x : Val) : VDict → Prop
  | .nil => False
  | .cons k' v tl => (k = k' ∧ x = v) ∨ VDict.memEntry k x tl

/-- Python `dict.get(k)` (first binding wins, as keys are unique in source
dicts): `none` models an absent key. -/
def VDict.lookup (k : String) : VDict → Option Val
  | .nil => none
  | .cons k' v tl => if k' = k then some v else VDict.lookup k tl

/-- Python `dict.get(k, default)`. -/
def VDict.getD (k : String) (dflt : Val) (d : VDict) : Val :=
  (d.lookup k).getD dflt

/-- Python `d[k] = v`: overwrite in place if the key exists, else append. -/
def VDict.setKey (k : String) (v : Val) : VDict → VDict
  | .nil => .cons k v .nil
  | .cons k' w tl => if k' = k then .cons k' v tl else .cons k' w (VDict.setKey k v tl)

/-- Concatenation of `VList`s. -/
def VList.append : VList → VList → VList
  | .nil, b => b
  | .cons v tl, b => .cons v (VList.append tl b)

/-- Length of a `VList`. -/
def VList.length : VList → Nat
  | .nil => 0
  | .cons _ tl => tl.length + 1

/-- Zero test for a Python float lexeme: every mantissa digit (before any
exponent marker) is `0`; `inf`/`nan` lexemes are non-zero. -/
def floatLexZero (s : String) : Bool :=
  let m := (s.data.takeWhile (fun c => !(c = 'e' || c = 'E'))).filter isAsciiDigit
  !m.isEmpty && m.all (· = '0')

/-- Python truthiness of a value. -/
def pyTruthy : Val → Bool
  | .vnull => false
  | .vbool b => b
  | .vint n => n ≠ 0
  | .vfloat s => !floatLexZero s
  | .vstr s => s ≠ ""
  | .vlist .nil => false
  | .vlist (.cons _ _) => true
  | .vdict .nil => false
  | .vdict (.cons _ _ _) => true

/-- Python `a or b`: `a` when truthy, else `b`. -/
def pyOr (a b : Val) : Val :=
  if pyTruthy a then a else b

/-- Python `d.get(k)` used as an expression (absent key gives `None`). -/
def VDict.getN (k : String) (d : VDict) : Val :=
  (d.lookup k).getD .vnull

/-! ## Output Sanitizer (`Orchestrator._sanitize_payload`, orchestrator.py:450) -/

/-- The fixed sensitive-key set `_SENSITIVE_KEYS` (orchestrator.py:25). -/
def sensitiveKeys : List String :=
  ["password", "card_number", "pass"]

mutual
/-- Embedding of `Orchestrator._sanitize_payload`: drop sensitive keys from
dicts (recursively) and recurse into lists; leave scalars unchanged. -/
def sanitizePayload : Val → Val
  | .vdict d => .vdict (sanitizeDict d)
  | .vlist l => .vlist (sanitizeList l)
  | v => v

/-- Dict part of `_sanitize_payload`. -/
def sanitizeDict : VDict → VDict
  | .nil => .nil
  | .cons k v tl =>
      if k ∈ sensitiveKeys then sanitizeDict tl
      else .cons k (sanitizePayload v) (sanitizeDict tl)

/-- List part of `_sanitize_payload`. -/
def sanitizeList : VList → VList
  | .nil => .nil
  | .cons v tl => .cons (sanitizePayload v) (sanitizeList tl)
end

mutual
/-- Does key `k` occur as a mapping key anywhere inside `v`? -/
def hasKeyV (k : String) : Val → Bool
  | .vdict d => hasKeyD k d
  | .vlist l => hasKeyL k l
  | _ => false

/-- `hasKeyV` on dicts. -/
def hasKeyD (k : String) : VDict → Bool
  | .nil => false
  | .cons k' v tl => k' = k || hasKeyV k v || hasKeyD k tl

/-- `hasKeyV` on lists. -/
def hasKeyL (k : String) : VList → Bool
  | .nil => false
  | .cons v tl => hasKeyV k v || hasKeyL k tl
end

/-! ## Argument Normalizer (`Orchestrator._normalize_params`, orchestrator.py:385) -/

/-- The compact form `key.replace("_", "").lower()` used by `_normalize_key`. -/
def compactKey (k : String) : String :=
  ⟨lowerL (k.data.filter (· ≠ '_'))⟩

/-- Embedding of `_normalize_key`: alias every compact-`userid` key to the
canonical `user_id`; other keys pass through unchanged. -/
def normalizeKey (k : String) : String :=
  if compactKey k = "userid" then "user_id" else k

/-- Python float-literal recognition, helper: a run `digit (digit | _ digit)*`
with underscores only between digits; returns the remainder. -/
def digitRunCont : List Char → List Char
  | [] => []
  | '_' :: c :: rest => if isAsciiDigit c then digitRunCont rest else '_' :: c :: rest
  | c :: rest => if isAsciiDigit c then digitRunCont rest else c :: rest

/-- Consume a mandatory digit run (Python numeric-literal `digitpart`). -/
def digitRun : List Char → Option (List Char)
  | [] => none
  | c :: rest => if isAsciiDigit c then some (digitRunCont rest) else none

/-- Full-match of an optional exponent `([eE][+-]?digitpart)?` and then end. -/
def floatExpTail : List Char → Bool
  | [] => true
  | c :: rest =>
      if c = 'e' || c = 'E' then
        let rest' := match rest with
          | '+' :: r => r
          | '-' :: r => r
          | r => r
        match digitRun rest' with
        | some [] => true
        | _ => false
      else false

/-- Full-match of `[.digitpart?] exp?` after a leading digit run. -/
def floatAfterInt : List Char → Bool
  | [] => true
  | '.' :: rest =>
      (match digitRun rest with
       | some r => floatExpTail r
       | none => floatExpTail rest)
  | rest => floatExpTail rest

/-- Does Python `float(s)` succeed on `s`?  Models the CPython grammar for
ASCII input: optional sign, then `inf`/`infinity`/`nan` (case-insensitive)
or a decimal literal with optional fraction/exponent and underscores only
between digits.  `float` itself strips surrounding whitespace. -/
def pyFloatOk (s : String) : Bool :=
  let l := stripL s.data
  let body := match l with
    | '+' :: r => r
    | '-' :: r => r
    | r => r
  if body = [] then false
  else
    let low := lowerL body
    if low = "inf".data || low = "infinity".data || low = "nan".data then true
    else
      match digitRun body with
      | some r => floatAfterInt r
      | none =>
        match body with
        | '.' :: rest =>
            (match digitRun rest with
             | some r => floatExpTail r
             | none => false)
        | _ => false

mutual
/-- Embedding of `_normalize_value`: recurse into dicts/lists (normalising
nested keys too), coerce all-digit strings to `int` and float-parseable
strings to `float`, leave everything else unchanged. -/
def normVal : Val → Val
  | .vdict d => .vdict (normDict d)
  | .vlist l => .vlist (normList l)
  | .vstr s =>
      let trimmed := stripL s.data
      if isDigitsL trimmed then .vint (digitsToNat trimmed)
      else if pyFloatOk ⟨trimmed⟩ then .vfloat ⟨trimmed⟩
      else .vstr s
  | v => v

/-- Embedding of `_normalize_params` on a dict. -/
def normDict : VDict → VDict
  | .nil => .nil
  | .cons k v tl => .cons (normalizeKey k) (normVal v) (normDict tl)

/-- `_normalize_value` on a list. -/
def normList : VList → VList
  | .nil => .nil
  | .cons v tl => .cons (normVal v) (normList tl)
end

/-! ## JSON serialization (model of `json.dumps(..., ensure_ascii=False)`) -/

/-- Escape one character of a JSON string the way `json.dumps` does with
`ensure_ascii=False`: only the backslash, the double quote and control
characters are escaped; everything else is emitted raw. -/
def escChar (c : Char) : List Char :=
  if c = '"' then ['\\', '"']
  else if c = '\\' then ['\\', '\\']
  else if c = '\n' then ['\\', 'n']
  else if c = '\t' then ['\\', 't']
  else if c = '\x0d' then ['\\', 'r']
  else if c = '\x08' then ['\\', 'b']
  else if c = '\x0c' then ['\\', 'f']
  else if c.toNat < 32 then
    let hexDigit (n : Nat) : Char := if n < 10 then Char.ofNat (48 + n) else Char.ofNat (87 + n)
    ['\\', 'u', '0', '0', hexDigit (c.toNat / 16), hexDigit (c.toNat % 16)]
  else [c]

/-- JSON string-literal encoding of `s` (including the surrounding quotes). -/
def dumpStr (s : String) : List Char :=
  '"' :: (s.data.flatMap escChar) ++ ['"']

mutual
/-- Embedding of `json.dumps(v, ensure_ascii=False)` with the default
separators `", "` and `": "`.  A float is emitted as its carried lexeme. -/
def jsonDumps : Val → List Char
  | .vnull => "null".data
  | .vbool true => "true".data
  | .vbool false => "false".data
  | .vint n => (toString n).data
  | .vfloat s => s.data
  | .vstr s => dumpStr s
  | .vlist l => '[' :: dumpsList l ++ [']']
  | .vdict d => '{' :: dumpsDict d ++ ['}']

/-- List body of `jsonDumps` (without brackets). -/
def dumpsList : VList → List Char
  | .nil => []
  | .cons v .nil => jsonDumps v
  | .cons v tl => jsonDumps v ++ ',' :: ' ' :: dumpsList tl

/-- Dict body of `jsonDumps` (without braces). -/
def dumpsDict : VDict → List Char
  | .nil => []
  | .cons k v .nil => dumpStr k ++ ':' :: ' ' :: jsonDumps v
  | .cons k v tl => dumpStr k ++ ':' :: ' ' :: jsonDumps v ++ ',' :: ' ' :: dumpsDict tl
end

/-! ## JSON parsing (model of `json.loads` and `JSONDecoder.raw_decode`) -/

/-- JSON whitespace accepted between tokens by the Python decoder. -/
def isJsonWS (c : Char) : Bool :=
  c = ' ' || c = '\t' || c = '\n' || c = '\x0d'

/-- Strict JSON number lexing from the head of the input: regex
`-?(0|[1-9]\d*)(\.\d+)?([eE][+-]?\d+)?`.  Returns the lexeme, whether a
fraction/exponent was present, and the remainder. -/
def lexJsonNumber (l : List Char) : Option (List Char × Bool × List Char) :=
  let signed := match l with
    | '-' :: r => (['-'], r)
    | r => (([] : List Char), r)
  let (sgn, r1) := signed
  match r1 with
  | [] => none
  | c :: rest =>
    if c = '0' then
      let intPart := sgn ++ [c]
      lexFracExp intPart rest
    else if isAsciiDigit c then
      let ds := rest.takeWhile isAsciiDigit
      let intPart := sgn ++ c :: ds
      lexFracExp intPart (rest.dropWhile isAsciiDigit)
    else none
where
  /-- Lex the optional fraction and exponent after the integer part. -/
  lexFracExp (acc : List Char) (r : List Char) : Option (List Char × Bool × List Char) :=
    let fr := match r with
      | '.' :: d :: rest' =>
          if isAsciiDigit d then
            some (('.' :: d :: rest'.takeWhile isAsciiDigit : List Char), rest'.dropWhile isAsciiDigit)
          else none
      | _ => none
    let (fracLex, r2, isFrac) := match fr with
      | some (f, rr) => (f, rr, true)
      | none => (([] : List Char), r, false)
    let ex := match r2 with
      | e :: rest' =>
          if e = 'e' || e = 'E' then
            let (sgn2, r3) := match rest' with
              | '+' :: rr => (['+'], rr)
              | '-' :: rr => (['-'], rr)
              | rr => (([] : List Char), rr)
            match r3 with
            | d :: rest'' =>
                if isAsciiDigit d then
                  some ((e :: sgn2 ++ d :: rest''.takeWhile isAsciiDigit : List Char),
                        rest''.dropWhile isAsciiDigit)
                else none
            | [] => none
          else none
      | [] => none
    match ex with
    | some (exLex, r4) => some (acc ++ fracLex ++ exLex, true, r4)
    | none => some (acc ++ fracLex, isFrac, r2)

/-- Integer value of a signed all-digit lexeme (used for JSON ints). -/
def intOfLexeme (l : List Char) : Int :=
  match l with
  | '-' :: ds => -(digitsToNat ds : Int)
  | ds => (digitsToNat ds : Int)

/-- Parse a JSON string body after the opening quote; strict mode: raw
control characters are rejected.  Returns the decoded text and remainder. -/
def parseJsonStr : Nat → List Char → Option (List Char × List Char)
  | 0, _ => none
  | _, [] => none
  | fuel + 1, c :: rest =>
    if c = '"' then some ([], rest)
    else if c = '\\' then
      match rest with
      | [] => none
      | e :: rest' =>
        let dec : Option (Char × List Char) :=
          if e = '"' then some ('"', rest')
          else if e = '\\' then some ('\\', rest')
          else if e = '/' then some ('/', rest')
          else if e = 'b' then some ('\x08', rest')
          else if e = 'f' then some ('\x0c', rest')
          else if e = 'n' then some ('\n', rest')
          else if e = 'r' then some ('\x0d', rest')
          else if e = 't' then some ('\t', rest')
          else if e = 'u' then
            match rest' with
            | h1 :: h2 :: h3 :: h4 :: rest'' =>
                let hv (h : Char) : Option Nat :=
                  if isAsciiDigit h then some (h.toNat - 48)
                  else if 'a' ≤ h && h ≤ 'f' then some (h.toNat - 87)
                  else if 'A' ≤ h && h ≤ 'F' then some (h.toNat - 55)
                  else none
                match hv h1, hv h2, hv h3, hv h4 with
                | some a, some b, some cc, some dd =>
                    -- surrogate pairs do not occur in this repository's
                    -- payloads, so `Char.ofNat` is an adequate model
                    some (Char.ofNat (a * 4096 + b * 256 + cc * 16 + dd), rest'')
                | _, _, _, _ => none
            | _ => none
          else none
        match dec with
        | some (ch, r) =>
            match parseJsonStr fuel r with
            | some (tail, r') => some (ch :: tail, r')
            | none => none
        | none => none
    else if c.toNat < 32 then none
    else
      match parseJsonStr fuel rest with
      | some (tail, r') => some (c :: tail, r')
      | none => none

mutual
/-- Parse one JSON value from the head of the input (no leading-whitespace
skip, matching `JSONDecoder.raw_decode`).  Fuel-driven recursion; callers
supply fuel larger than the input length. -/
def parseJValue : Nat → List Char → Option (Val × List Char)
  | 0, _ => none
  | _, [] => none
  | fuel + 1, c :: rest =>
    if c = '{' then parseJObj fuel (rest.dropWhile isJsonWS) VDict.nil
    else if c = '[' then parseJArr fuel (rest.dropWhile isJsonWS) VList.nil
    else if c = '"' then
      match parseJsonStr (fuel + 1) rest with
      | some (body, r) => some (.vstr ⟨body⟩, r)
      | none => none
    else if headIs "true".data (c :: rest) then some (.vbool true, rest.drop 3)
    else if headIs "false".data (c :: rest) then some (.vbool false, rest.drop 4)
    else if headIs "null".data (c :: rest) then some (.vnull, rest.drop 3)
    -- the Python decoder also accepts these non-standard float constants
    else if headIs "NaN".data (c :: rest) then some (.vfloat "NaN", rest.drop 2)
    else if headIs "Infinity".data (c :: rest) then some (.vfloat "Infinity", rest.drop 7)
    else if headIs "-Infinity".data (c :: rest) then some (.vfloat "-Infinity", rest.drop 8)
    else
      match lexJsonNumber (c :: rest) with
      | some (lex, isFloat, r) =>
          if isFloat then some (.vfloat ⟨lex⟩, r) else some (.vint (intOfLexeme lex), r)
      | none => none

/-- Parse the inside of a JSON object; the input starts after `{` with
whitespace already skipped.  `acc` holds the entries parsed so far. -/
def parseJObj : Nat → List Char → VDict → Option (Val × List Char)
  | 0, _, _ => none
  | _, [], _ => none
  | fuel + 1, c :: rest, acc =>
    if c = '}' then
      match acc with
      | .nil => some (.vdict .nil, rest)
      | _ => none
    else if c = '"' then
      match parseJsonStr (fuel + 1) rest with
      | some (key, r1) =>
        match r1.dropWhile isJsonWS with
        | ':' :: r2 =>
          match parseJValue fuel (r2.dropWhile isJsonWS) with
          | some (v, r3) =>
            let acc' := acc.setKey ⟨key⟩ v
            match r3.dropWhile isJsonWS with
            | ',' :: r4 => parseJObj fuel (r4.dropWhile isJsonWS) acc'
            | '}' :: r4 => some (.vdict acc', r4)
            | _ => none
          | none => none
        | _ => none
      | none => none
    else none

/-- Parse the inside of a JSON array; the input starts after `[` with
whitespace already skipped. -/
def parseJArr : Nat → List Char → VList → Option (Val × List Char)
  | 0, _, _ => none
  | _, [], _ => none
  | fuel + 1, c :: rest, acc =>
    if c = ']' then
      match acc with
      | .nil => some (.vlist .nil, rest)
      | _ => none
    else
      match parseJValue fuel (c :: rest) with
      | some (v, r1) =>
        let acc' := VList.append acc (.cons v .nil)
        match r1.dropWhile isJsonWS with
        | ',' :: r2 => parseJArr fuel (r2.dropWhile isJsonWS) acc'
        | ']' :: r2 => some (.vlist acc', r2)
        | _ => none
      | none => none
end

/-- Embedding of `json.loads`: surrounding whitespace is allowed, anything
else trailing is an error. -/
def jsonLoads (s : String) : Option Val :=
  match parseJValue (s.data.length + 1) (s.data.dropWhile isJsonWS) with
  | some (v, rest) => if rest.dropWhile isJsonWS = [] then some v else none
  | none => none

/-- Embedding of `JSONDecoder.raw_decode` applied to a suffix of the text:
parse one value at the very first character (no whitespace skip), returning
it together with the unconsumed remainder. -/
def rawDecode (l : List Char) : Option (Val × List Char) :=
  parseJValue (l.length + 1) l

/-! ## Tool-Call Extractor (`Orchestrator._extract_tool_calls` and helpers) -/

/-- A tool call as carried by the improvised `SimpleNamespace(name, arguments)`
objects of the orchestrator.  The name can be any value the LLM supplied. -/
structure ToolCall where
  name : Val
  arguments : Val

/-- The single-quote character (kept out of literals for hygiene). -/
def squote : Char := Char.ofNat 39

/-- Ends-with test for one character. -/
def endsWithChar (c : Char) (l : List Char) : Bool :=
  match l.getLast? with
  | some c' => c' = c
  | none => false

/-- Value typing of `_parse_tool_code_line` after stripping: all-digit
becomes `int`, float-parseable becomes `float`, anything else stays the
stripped string. -/
def toolValueOfStripped (v : List Char) : Val :=
  if isDigitsL v then .vint (digitsToNat v)
  else if pyFloatOk ⟨v⟩ then .vfloat ⟨v⟩
  else .vstr ⟨v⟩

/-- One `key=value` pair of an executable-call line (`args[key] = …`). -/
def addCallPair (acc : VDict) (pair : List Char) : VDict :=
  match splitOnce '=' pair with
  | none => acc
  | some (k, v) =>
      let key := stripL k
      let value := stripCharL squote (stripCharL '"' (stripL v))
      acc.setKey ⟨key⟩ (toolValueOfStripped value)

/-- Embedding of `Orchestrator._parse_tool_code_line`
(orchestrator.py:361): split at the first `(`, drop the final `)`, then
parse comma-separated `key=value` pairs. -/
def parseToolCodeLine (line : List Char) : Option String × VDict :=
  if !(containsSeq ['('] line) || !(endsWithChar ')' line) then (none, .nil)
  else
    match splitOnce '(' line with
    | none => (none, .nil)
    | some (namePart, rawTail) =>
        let name := stripL namePart
        let rawArgs := stripL rawTail.dropLast
        if rawArgs.isEmpty then (some ⟨name⟩, .nil)
        else (some ⟨name⟩, (splitOnChar ',' rawArgs).foldl addCallPair .nil)

/-- Earliest index at which a triple backtick starts, if any. -/
def findTripleIdx : List Char → Option Nat
  | [] => none
  | c :: rest =>
      if headIs "```".data (c :: rest) then some 0
      else (findTripleIdx rest).map (· + 1)

/-- Backtracking search of `\s*(.+?)``` ` after the `` ```tool_code ``
literal: `w` whitespace characters are still attributed to `\s*` (greedy,
so tried from the maximal run downwards), then the lazy group needs at
least one character before the closing fence. -/
def tcAttempt (u : List Char) : Option (List Char × List Char) :=
  match u with
  | [] => none
  | _ :: rest =>
      match (findTripleIdx rest).map (· + 1) with
      | some p => some (u.take p, u.drop (p + 3))
      | none => none

/-- Try the whitespace splits of `tcAttempt` from `w` characters down to
zero, mirroring the greedy `\s*` with backtracking. -/
def tcTryW (t : List Char) : Nat → Option (List Char × List Char)
  | 0 => tcAttempt t
  | w + 1 =>
      match tcAttempt (t.drop (w + 1)) with
      | some r => some r
      | none => tcTryW t w

/-- Scan for all non-overlapping matches of `_TOOL_CODE_PATTERN`
(``` ```tool_code\s*(.+?)``` ```, DOTALL, IGNORECASE), like `re.findall`. -/
def scanToolCode : Nat → List Char → List (List Char)
  | 0, _ => []
  | _, [] => []
  | fuel + 1, c :: rest =>
      match headIsCI "```tool_code".data (c :: rest) with
      | some t =>
          match tcTryW t (t.takeWhile isPyWS).length with
          | some (cap, after) => cap :: scanToolCode fuel after
          | none => scanToolCode fuel rest
      | none => scanToolCode fuel rest

/-- Search, inside a fenced JSON block, for the earliest closing bracket
that is followed by `\s*` and the closing fence; returns its index and the
text after the fence. -/
def findFenceClose (cl : Char) : List Char → Option (Nat × List Char)
  | [] => none
  | c :: rest =>
      if c = cl && headIs "```".data (rest.dropWhile isPyWS) then
        some (0, (rest.dropWhile isPyWS).drop 3)
      else (findFenceClose cl rest).map (fun pr => (pr.1 + 1, pr.2))

/-- One alternative `\{.+?\}` / `\[.+?\]` of the JSON fence patterns, with
the lazy group non-empty; `u` starts where `\s*` ended. -/
def fenceAlt (op cl : Char) (u : List Char) : Option (List Char × List Char) :=
  match u with
  | o :: _ :: v =>
      if o = op then
        match findFenceClose cl v with
        | some (i, after) => some (u.take (i + 3), after)
        | none => none
      else none
  | _ => none

/-- Scan for all non-overlapping matches of `_ACTIONS_JSON_PATTERN` /
`_JSON_FENCE_PATTERN` (``` ```json\s*(\{.+?\}|\[.+?\])\s*``` ```); the
bracket alternative exists only in the latter.  The lazy group starts with
a non-whitespace bracket, so `\s*` always takes its maximal run. -/
def scanJsonFence (allowBracket : Bool) : Nat → List Char → List (List Char)
  | 0, _ => []
  | _, [] => []
  | fuel + 1, c :: rest =>
      match headIsCI "```json".data (c :: rest) with
      | some t =>
          let u := t.dropWhile isPyWS
          let m := match fenceAlt '{' '}' u with
            | some r => some r
            | none => if allowBracket then fenceAlt '[' ']' u else none
          match m with
          | some (cap, after) => cap :: scanJsonFence allowBracket fuel after
          | none => scanJsonFence allowBracket fuel rest
      | none => scanJsonFence allowBracket fuel rest

/-- Embedding of `Orchestrator._extract_json_payloads`: try
`raw_decode` at every `{` and collect the decoded objects, continuing
after each successful parse. -/
def extractJsonPayloads : Nat → List Char → List Val
  | 0, _ => []
  | _, [] => []
  | fuel + 1, c :: rest =>
      if c = '{' then
        match rawDecode (c :: rest) with
        | some (v, after) => v :: extractJsonPayloads fuel after
        | none => extractJsonPayloads fuel rest
      else extractJsonPayloads fuel rest

/-- Embedding of `_normalize_params` applied to an arbitrary value: the
source calls `.items()` on it, so anything but a mapping raises. -/
def normalizeParamsVal : Val → Except String Val
  | .vdict d => .ok (.vdict (normDict d))
  | _ => .error "AttributeError: _normalize_params expects a mapping"

/-- Is this value the string `"execute_in_sandbox"` (Python `==`)? -/
def isSandboxAction : Val → Bool
  | .vstr s => s = "execute_in_sandbox"
  | _ => false

/-- Items loop of `_parse_plan` for a top-level JSON list. -/
def planListCalls : VList → Except String (List ToolCall)
  | .nil => .ok []
  | .cons item tl =>
      match item with
      | .vdict d =>
          let name := pyOr (d.getN "tool") (pyOr (d.getN "function") (d.getN "name"))
          let params := pyOr (d.getN "parameters") (pyOr (d.getN "params") (.vdict .nil))
          if pyTruthy name then do
            let p ← normalizeParamsVal params
            let rest ← planListCalls tl
            pure (⟨name, p⟩ :: rest)
          else planListCalls tl
      | _ => planListCalls tl

/-- Actions loop of `_parse_plan` for the `actions`/`plan` list. -/
def planActionCalls : VList → Except String (List ToolCall)
  | .nil => .ok []
  | .cons action tl =>
      match action with
      | .vdict a =>
          if isSandboxAction (a.getN "action") then do
            let rest ← planActionCalls tl
            pure (⟨.vstr "execute_in_sandbox",
                   .vdict (normDict (.cons "task" (a.getN "task") .nil))⟩ :: rest)
          else
            let name := pyOr (a.getN "function") (pyOr (a.getN "function_name") (a.getN "name"))
            let params := pyOr (a.getN "parameters")
              (pyOr (a.getN "params") (pyOr (a.getN "arguments") (.vdict .nil)))
            if pyTruthy name then do
              let p ← normalizeParamsVal params
              let rest ← planActionCalls tl
              pure (⟨name, p⟩ :: rest)
            else planActionCalls tl
      | _ => planActionCalls tl

/-- Embedding of `Orchestrator._parse_plan` (orchestrator.py:242): decode
the JSON, then read either a flat list of call objects or an
`actions`/`plan` structure.  Decoding failures are swallowed (empty
result); iterating a non-iterable `actions` value raises. -/
def parsePlan (raw : String) : Except String (List ToolCall) :=
  match jsonLoads raw with
  | none => .ok []
  | some (.vstr _) => .ok []
  | some (.vlist items) => planListCalls items
  | some (.vdict d) =>
      let actionsRaw := pyOr (d.getN "actions") (pyOr (d.getN "plan") (.vlist .nil))
      let actions := match actionsRaw with
        | .vdict d2 => d2.getD "steps" (.vlist .nil)
        | a => a
      match actions with
      | .vlist items => planActionCalls items
      | .vstr _ => .ok []
      | .vdict _ => .ok []
      | _ => .error "TypeError: actions is not iterable"
  | some _ => .ok []

/-- The `_add` closure of `_parse_function_payload`: ignore falsy names,
decode string arguments as JSON (defaulting to `{}`), coerce non-mapping
arguments to `{}`, and normalize. -/
def addCall (name arguments : Val) : List ToolCall :=
  if !pyTruthy name then []
  else
    let args : Val := match arguments with
      | .vstr s => match jsonLoads s with
        | some v => v
        | none => .vdict .nil
      | a => a
    let d : VDict := match args with
      | .vdict dd => dd
      | _ => .nil
    [⟨name, .vdict (normDict d)⟩]

/-- The `tool_calls` branch of `_parse_function_payload._visit`. -/
def pfpToolCalls : VList → List ToolCall
  | .nil => []
  | .cons call tl =>
      (match call with
       | .vdict c =>
           (match pyOr (c.getN "function") (.vdict .nil) with
            | .vdict fd => addCall (fd.getN "name") (fd.getN "arguments")
            | _ => addCall (c.getN "name") (c.getN "arguments"))
       | _ => []) ++ pfpToolCalls tl

mutual
/-- Embedding of `Orchestrator._parse_function_payload._visit`
(orchestrator.py:305): recursive structural search for `tool_calls`
lists, `function_call`/`function` objects, or `name`+`arguments` shapes. -/
def pfpVisit : Val → List ToolCall
  | .vlist l => pfpVisitList l
  | .vdict d =>
      (match d.lookup "tool_calls" with
       | some (.vlist calls) => pfpToolCalls calls
       | _ =>
         match d.lookup "function_call" with
         | some (.vdict fc) => addCall (fc.getN "name") (fc.getN "arguments")
         | _ =>
           match d.lookup "function" with
           | some (.vdict f) => addCall (f.getN "name") (f.getN "arguments")
           | _ =>
             if (d.lookup "name").isSome && (d.lookup "arguments").isSome then
               addCall (d.getN "name") (d.getN "arguments")
             else pfpVisitValues d)
  | _ => []

/-- Visit every element of a list. -/
def pfpVisitList : VList → List ToolCall
  | .nil => []
  | .cons v tl => pfpVisit v ++ pfpVisitList tl

/-- Visit every value of a dict (the `node.values()` fallback). -/
def pfpVisitValues : VDict → List ToolCall
  | .nil => []
  | .cons _ v tl => pfpVisit v ++ pfpVisitValues tl
end

/-- One fenced `tool_code` block of `_extract_tool_calls`: plan JSON when
the stripped body starts with `[`, otherwise one call per non-empty line. -/
def toolCodeBlockCalls (cap : List Char) : Except String (List ToolCall) :=
  let stripped := stripL cap
  match stripped with
  | '[' :: _ => parsePlan ⟨stripped⟩
  | _ =>
      .ok (((splitLinesPy cap).map stripL).filter (fun l => !l.isEmpty) |>.filterMap
        (fun line =>
          match parseToolCodeLine line with
          | (some n, args) => if n ≠ "" then some ⟨.vstr n, .vdict args⟩ else none
          | (none, _) => none))

/-- Monadic concatMap over `Except` (exceptions abort, as in Python). -/
def exceptFlatMap (f : α → Except String (List β)) : List α → Except String (List β)
  | [] => .ok []
  | x :: rest => do
      let a ← f x
      let b ← exceptFlatMap f rest
      pure (a ++ b)

/-- Embedding of `Orchestrator._extract_tool_calls` (orchestrator.py:206):
run every text-parsing strategy in order and concatenate the results. -/
def extractToolCalls (content : String) : Except String (List ToolCall) := do
  let cl := content.data
  let a ← exceptFlatMap toolCodeBlockCalls (scanToolCode (cl.length + 1) cl)
  let b ← exceptFlatMap (fun cap => parsePlan ⟨cap⟩) (scanJsonFence false (cl.length + 1) cl)
  let c ← exceptFlatMap (fun cap => parsePlan ⟨cap⟩) (scanJsonFence true (cl.length + 1) cl)
  let d := ((extractJsonPayloads (cl.length + 1) cl).map pfpVisit).flatten
  let st := stripL cl
  let e ← match st with
    | '{' :: _ => if endsWithChar '}' st then parsePlan ⟨st⟩ else pure []
    | _ => pure []
  pure (a ++ b ++ c ++ d ++ e)

/-! ## Code Validator (`Orchestrator._validate_code`, orchestrator.py:446) -/

/-- Embedding of `_BLOCKED_CODE_PATTERN.search` (orchestrator.py:19): a
case-insensitive scan for any forbidden construct. -/
def blockedCode (code : String) : Bool :=
  let l := lowerL code.data
  containsSeq "subprocess".data l || containsSeq "socket".data l ||
  containsSeq "requests".data l || containsSeq "shutil".data l ||
  containsSeq "os.system".data l || containsSeq "__import__".data l ||
  containsSeq "open(".data l || containsSeq "eval(".data l ||
  containsSeq "exec(".data l ||
  matchAWSB "import".data "os".data l || matchAWSB "import".data "sys".data l ||
  matchAWSB "rm".data "-rf".data l

/-- Embedding of `Orchestrator._validate_code`: raise `ValueError` when the
blocklist matches. -/
def validateCode (code : String) : Except String Unit :=
  if blockedCode code then .error "ValueError: Sandbox code contains a forbidden keyword"
  else .ok ()

/-! ## Sandbox Code Builder (`Orchestrator._build_sandbox_code`, orchestrator.py:409) -/

/-- The fixed prelude head of `_build_sandbox_code` up to the start of the
embedded JSON literal. -/
def preludeHead : String :=
  "import json\nimport matplotlib\nmatplotlib.use(\x27Agg\x27)\nimport matplotlib.pyplot as plt\ninputs = json.loads(\x27\x27\x27"

/-- The image-capture postlude appended when the code has no image marker. -/
def postludeText : String :=
  "\n\ntry:\n    import io\n    import base64\n    import matplotlib.pyplot as plt\n    if plt.get_fignums():\n        buf = io.BytesIO()\n        plt.tight_layout()\n        plt.savefig(buf, format=\x27png\x27)\n        buf.seek(0)\n        img_base64 = base64.b64encode(buf.read()).decode(\x27utf-8\x27)\n        print(f\"IMAGE_START:\x7bimg_base64\x7d:IMAGE_END\")\nexcept Exception as e:\n    print(f\"GRAPH_ERROR:\x7be\x7d\")\n"

/-- Embedding of `Orchestrator._build_sandbox_code`: prelude with the
JSON-encoded inputs, then the LLM code plus the image postlude, or the
echo fallback when no code was supplied (`if code:` is Python truthiness,
so the empty string also takes the fallback). -/
def buildSandboxCode (code : Option String) (task : Val) (inputs : Option Val)
    (results : VList) : String :=
  let payload := match inputs with
    | some v => v
    | none => .vdict (.cons "results" (.vlist results) (.cons "task" task .nil))
  let encoded : String := ⟨jsonDumps payload⟩
  let prelude := preludeHead ++ encoded ++ "\x27\x27\x27)\n"
  match code with
  | some c =>
      if c = "" then prelude ++ "\nprint(json.dumps(inputs, ensure_ascii=False))"
      else
        let postlude :=
          if containsSeq "IMAGE_BASE64".data c.data || containsSeq "IMAGE_START".data c.data
          then "" else postludeText
        prelude ++ "\n" ++ c ++ postlude
  | none => prelude ++ "\nprint(json.dumps(inputs, ensure_ascii=False))"

/-! ## Package inference and merging (orchestrator.py:462–491, 126–131) -/

/-- The allow-list `_AUTO_PACKAGE_ALLOWLIST` (orchestrator.py:36). -/
def autoPackageAllowlist : List String :=
  ["numpy", "pandas", "matplotlib", "seaborn", "scipy", "statsmodels", "sklearn", "plotly"]

/-- Per-line model of one `_IMPORT_PATTERN` match
(`^\s*(?:from|import)\s+([a-zA-Z0-9_\.]+)`, MULTILINE): leading
whitespace, the keyword, at least one whitespace, then the captured
module characters. -/
def lineImportModule (line : List Char) : Option (List Char) :=
  let l := line.dropWhile isPyWS
  let afterKW : Option (List Char) :=
    if headIs "from".data l then some (l.drop 4)
    else if headIs "import".data l then some (l.drop 6)
    else none
  match afterKW with
  | none => none
  | some r =>
      if (r.takeWhile isPyWS).isEmpty then none
      else
        let m := (r.dropWhile isPyWS).takeWhile isModChar
        if m.isEmpty then none else some m

/-- The allow-listed module names found by the import scan, in match order
(`module = match.split(".", 1)[0].strip().lower()`). -/
def importCandidates (code : List Char) : List String :=
  (splitNL code).filterMap (fun line =>
    match lineImportModule line with
    | some m =>
        let module : String := ⟨lowerL (stripL (m.takeWhile (· ≠ '.')))⟩
        if module ∈ autoPackageAllowlist then some module else none
    | none => none)

/-- Order-preserving de-duplication with a seen accumulator. -/
def dedupGo (seen : List String) : List String → List String
  | [] => []
  | x :: rest => if x ∈ seen then dedupGo seen rest else x :: dedupGo (seen ++ [x]) rest

/-- Embedding of `Orchestrator._infer_packages_from_code`. -/
def inferPackages (code : String) : List String :=
  if code = "" then []
  else
    let candidates := importCandidates code.data
    if candidates.isEmpty then [] else dedupGo [] candidates

/-- Embedding of `Orchestrator._needs_plot_packages`: search for any
visualization keyword, case-insensitively. -/
def needsPlotPackages (text : String) : Bool :=
  let l := lowerL text.data
  containsSeq "그래프".data l || containsSeq "시각화".data l || containsSeq "차트".data l ||
  containsSeq "plot".data l || containsSeq "chart".data l

/-- Loop body of `Orchestrator._ensure_packages`: `merged` and the set of
lower-cased names seen so far. -/
def ensureGo (merged normalized : List String) : List String → List String
  | [] => merged
  | pkg :: rest =>
      if lowerStr pkg ∈ normalized then ensureGo merged normalized rest
      else ensureGo (merged ++ [pkg]) (normalized ++ [lowerStr pkg]) rest

/-- Embedding of `Orchestrator._ensure_packages`. -/
def ensurePackages (packages required : List String) : List String :=
  ensureGo packages (packages.map lowerStr) required

/-- Package-merging step of the sandbox branch (orchestrator.py:126–131)
applied to the already-built code: merge the inferred packages into the
requested ones, then force `matplotlib` when the user message mentions
plotting. -/
def mergedPackages (requested : List String) (builtCode : String) (message : String) :
    List String :=
  let inferred := inferPackages builtCode
  let r1 := if !inferred.isEmpty then ensurePackages requested inferred else requested
  if needsPlotPackages message then ensurePackages r1 ["matplotlib"] else r1

/-- The package list finally passed to the sandbox client for one
`execute_in_sandbox` call, as a function of the call's arguments and the
user message. -/
def finalRequiredPackages (requested : List String) (code : Option String) (task : Val)
    (inputs : Option Val) (results : VList) (message : String) : List String :=
  mergedPackages requested (buildSandboxCode code task inputs results) message

/-! ## Output Sanitizer, image part (`Orchestrator._extract_images_from_stdout`) -/

/-- Take the maximal base64-class run and the remainder. -/
def b64Run (l : List Char) : List Char × List Char :=
  (l.takeWhile isB64Char, l.dropWhile isB64Char)

/-- Backtracking over the greedy `\S+` mime group of `_IMAGE_PATTERN`: try
mime lengths from `n` downwards; after the mime, `\s*` must run up to the
(non-whitespace) `IMAGE_BASE64:` literal followed by a non-empty base64
run. -/
def imageAfterMime (afterMimeColon : List Char) : Nat → Option (List Char × List Char × List Char)
  | 0 => none
  | n + 1 =>
      let mime := afterMimeColon.take (n + 1)
      let attempt :=
        match headIsCI "image_base64:".data ((afterMimeColon.drop (n + 1)).dropWhile isPyWS) with
        | some r3 =>
            let (b, r4) := b64Run r3
            if b.isEmpty then none else some (mime, b, r4)
        | none => none
      match attempt with
      | some r => some r
      | none => imageAfterMime afterMimeColon n

/-- Match `_IMAGE_PATTERN`
(`(?:IMAGE_MIME:(?P<mime>\S+)\s*)?IMAGE_BASE64:(?P<b64>[A-Za-z0-9+/=]+)`,
IGNORECASE) at the head of `s`; returns the optional mime, the base64
payload and the text after the match. -/
def matchImageAt (s : List Char) : Option (Option (List Char) × List Char × List Char) :=
  let bare :=
    match headIsCI "image_base64:".data s with
    | some r =>
        let (b, r2) := b64Run r
        if b.isEmpty then none else some ((none : Option (List Char)), b, r2)
    | none => none
  match headIsCI "image_mime:".data s with
  | some afterM =>
      (match imageAfterMime afterM (afterM.takeWhile (fun c => !isPyWS c)).length with
       | some (mime, b, r) => some (some mime, b, r)
       | none => bare)
  | none => bare

/-- Match `_IMAGE_START_PATTERN`
(`IMAGE_START:(?P<b64>[A-Za-z0-9+/=]+):IMAGE_END`, IGNORECASE) at the head
of `s`. -/
def matchImageStartAt (s : List Char) : Option (List Char × List Char) :=
  match headIsCI "image_start:".data s with
  | some r =>
      let (b, r2) := b64Run r
      if b.isEmpty then none
      else
        match headIsCI ":image_end".data r2 with
        | some r3 => some (b, r3)
        | none => none
  | none => none

/-- The replacement text inserted by both substitutions. -/
def imageOmitted : List Char := "[image omitted]".data

/-- Model of `_IMAGE_PATTERN.sub(_replace, stdout)`: collect each match (in
order) and replace it with the placeholder. -/
def imageSub1 : Nat → List Char → List (Option (List Char) × List Char) × List Char
  | 0, s => ([], s)
  | _, [] => ([], [])
  | fuel + 1, c :: rest =>
      match matchImageAt (c :: rest) with
      | some (mime, b, after) =>
          let (ms, cleaned) := imageSub1 fuel after
          ((mime, b) :: ms, imageOmitted ++ cleaned)
      | none =>
          let (ms, cleaned) := imageSub1 fuel rest
          (ms, c :: cleaned)

/-- Model of `_IMAGE_START_PATTERN.sub(_replace_start, ·)`. -/
def imageSub2 : Nat → List Char → List (List Char) × List Char
  | 0, s => ([], s)
  | _, [] => ([], [])
  | fuel + 1, c :: rest =>
      match matchImageStartAt (c :: rest) with
      | some (b, after) =>
          let (ms, cleaned) := imageSub2 fuel after
          (b :: ms, imageOmitted ++ cleaned)
      | none =>
          let (ms, cleaned) := imageSub2 fuel rest
          (ms, c :: cleaned)

/-- The `_append_image` closure: build the emitted image record according
to the configured return mode (`sha` models `hashlib.sha256(...).hexdigest()`,
an external primitive). -/
def buildImage (modeN : String) (sha : String → String) (mime b64 : String) : Option Val :=
  if modeN = "omit" || modeN = "none" then none
  else if modeN = "hash" || modeN = "short" then
    some (.vdict (.cons "mime" (.vstr mime) (.cons "sha256" (.vstr (sha b64)) .nil)))
  else
    some (.vdict (.cons "mime" (.vstr mime)
      (.cons "base64" (.vstr b64)
        (.cons "data_url" (.vstr ("data:" ++ mime ++ ";base64," ++ b64)) .nil))))

/-- Append an optional element to a `VList`. -/
def VList.appendOpt (l : VList) : Option Val → VList
  | some v => VList.append l (.cons v .nil)
  | none => l

/-- Fold a list of optional images into a `VList`. -/
def imagesToVList : List (Option Val) → VList
  | [] => .nil
  | some v :: rest => .cons v (imagesToVList rest)
  | none :: rest => imagesToVList rest

/-- Embedding of `Orchestrator._extract_images_from_stdout`
(orchestrator.py:493): run both marker substitutions, emitting the image
records and the cleaned text.  `mode` is the raw `IMAGE_RETURN_MODE`
environment value (default `"base64"`). -/
def extractImagesFromStdout (mode : String) (sha : String → String) (stdout : String) :
    VList × String :=
  if stdout = "" then (.nil, stdout)
  else
    let modeN : String := ⟨lowerL (stripL mode.data)⟩
    let (ms1, cleaned1) := imageSub1 (stdout.data.length + 1) stdout.data
    let (ms2, cleaned2) := imageSub2 (cleaned1.length + 1) cleaned1
    let imgs1 := ms1.map (fun pr =>
      buildImage modeN sha (match pr.1 with
        | some m => (⟨m⟩ : String)
        | none => "image/png") ⟨pr.2⟩)
    let imgs2 := ms2.map (fun b => buildImage modeN sha "image/png" ⟨b⟩)
    (imagesToVList (imgs1 ++ imgs2), ⟨cleaned2⟩)

/-! ## Orchestration Controller loop body (orchestrator.py:112–153) -/

/-- Embedding of `Orchestrator._parse_args` (orchestrator.py:189): dict
arguments are normalized; string arguments are JSON-decoded (decoding
failures raise), with one more decoding round for doubly-encoded strings
(that inner failure returns `{}`); anything else raises. -/
def parseArgs (arguments : Val) : Except String VDict :=
  match arguments with
  | .vdict d => .ok (normDict d)
  | .vstr s =>
      match jsonLoads s with
      | none => .error "json.loads failed on tool arguments"
      | some parsed =>
          match parsed with
          | .vstr inner =>
              let trimmed := stripL inner.data
              let isWrapped :=
                (headIs ['{'] trimmed && endsWithChar '}' trimmed) ||
                (headIs ['['] trimmed && endsWithChar ']' trimmed)
              if isWrapped then
                match jsonLoads ⟨trimmed⟩ with
                | some (.vdict d) => .ok (normDict d)
                | some _ => .ok .nil
                | none => .ok .nil
              else .ok .nil
          | .vdict d => .ok (normDict d)
          | _ => .ok .nil
  | _ => .error "ValueError: bad tool arguments"

/-- Events observable in the controller loop body. -/
inductive OEvent where
  | sandboxRunCall (code : String) (packages : List String)
  | registryCall

/-- Oracles for one loop iteration: the outcome of
`sandbox_client.run_code`, the outcome of `registry.execute`, the
`IMAGE_RETURN_MODE` value and the sha256 primitive. -/
structure OrchEnv where
  sandboxRun : Except String Val
  registryExec : Except String Val
  imageMode : String
  sha256Hex : String → String

/-- Extract a string-typed argument (`args.get(k)` under the tool schema's
string typing; absent or non-string gives `None`). -/
def argStr? (d : VDict) (k : String) : Option String :=
  match d.lookup k with
  | some (.vstr s) => some s
  | _ => none

/-- Extract the `inputs` argument: Python `is not None` semantics. -/
def argInputs (d : VDict) : Option Val :=
  match d.lookup "inputs" with
  | some .vnull => none
  | some v => some v
  | none => none

/-- The string elements of a `VList` (the declared type of
`required_packages`). -/
def vlistStrings : VList → List String
  | .nil => []
  | .cons (.vstr s) tl => s :: vlistStrings tl
  | .cons _ tl => vlistStrings tl

/-- Extract `args.get("required_packages", []) or []`. -/
def argPackages (d : VDict) : List String :=
  match d.lookup "required_packages" with
  | some (.vlist l) => vlistStrings l
  | _ => []

/-- Read `sandbox_result.get("stdout", "")`: strings pass, a missing or
falsy value acts as the empty string, any other value would make the
regex substitution raise. -/
def stdoutOf (d : VDict) : Except String String :=
  match d.lookup "stdout" with
  | some (.vstr s) => .ok s
  | none => .ok ""
  | some v => if pyTruthy v then .error "TypeError: stdout is not a string" else .ok ""

/-- Embedding of one iteration of the tool-execution loop of
`Orchestrator.handle_user_request` (orchestrator.py:112–153): parse the
arguments, then either the sandbox branch (build → validate → packages →
run → image extraction → store raw result) or the registry branch (execute
→ sanitize → store).  The returned value is the stored `results` entry
plus the images extracted in this iteration; an `Except.error` models an
exception aborting the whole request. -/
def execToolCall (env : OrchEnv) (messageContent : String) (call : ToolCall)
    (results : VList) : List OEvent × Except String (Val × VList) :=
  match parseArgs call.arguments with
  | .error e => ([], .error e)
  | .ok args =>
    if isSandboxAction call.name then
      let code := buildSandboxCode (argStr? args "code") (args.getN "task") (argInputs args) results
      match validateCode code with
      | .error e => ([], .error e)
      | .ok () =>
          let pkgs := mergedPackages (argPackages args) code messageContent
          let ev := [OEvent.sandboxRunCall code pkgs]
          match env.sandboxRun with
          | .error e => (ev, .error e)
          | .ok sres =>
              match sres with
              | .vdict d =>
                  (match stdoutOf d with
                   | .error e => (ev, .error e)
                   | .ok sout =>
                       let (imgs, cleaned) :=
                         extractImagesFromStdout env.imageMode env.sha256Hex sout
                       let d' := match imgs with
                         | .nil => d
                         | _ => d.setKey "stdout" (.vstr cleaned)
                       (ev, .ok (.vdict (.cons "tool" call.name
                         (.cons "result" (.vdict d') .nil)), imgs)))
              | _ => (ev, .error "AttributeError: sandbox result is not a mapping")
    else
      match env.registryExec with
      | .error e => ([.registryCall], .error e)
      | .ok r =>
          ([.registryCall],
           .ok (.vdict (.cons "tool" call.name (.cons "result" (sanitizePayload r) .nil)), .nil))

/-! ## Command-string builders (base64/utf-8/shlex, used by manager and client) -/

/-- UTF-8 encoding of one code point. -/
def utf8Char (c : Char) : List Nat :=
  let n := c.toNat
  if n < 128 then [n]
  else if n < 2048 then [192 + n / 64, 128 + n % 64]
  else if n < 65536 then [224 + n / 4096, 128 + n / 64 % 64, 128 + n % 64]
  else [240 + n / 262144, 128 + n / 4096 % 64, 128 + n / 64 % 64, 128 + n % 64]

/-- UTF-8 encoding of a string (`str.encode("utf-8")`). -/
def utf8Bytes (s : String) : List Nat :=
  s.data.flatMap utf8Char

/-- The base64 alphabet character for a 6-bit value. -/
def b64Char (n : Nat) : Char :=
  ("ABCDEFGHIJKLMNOPQRSTUVWXYZabcdefghijklmnopqrstuvwxyz0123456789+/".data.getD n 'A')

/-- Standard base64 of a byte list (`base64.b64encode`). -/
def b64EncodeBytes : List Nat → List Char
  | [] => []
  | [a] => [b64Char (a / 4), b64Char (a % 4 * 16), '=', '=']
  | [a, b] => [b64Char (a / 4), b64Char (a % 4 * 16 + b / 16), b64Char (b % 16 * 4), '=']
  | a :: b :: c :: rest =>
      b64Char (a / 4) :: b64Char (a % 4 * 16 + b / 16) ::
      b64Char (b % 16 * 4 + c / 64) :: b64Char (c % 64) :: b64EncodeBytes rest

/-- `base64.b64encode(s.encode("utf-8")).decode("ascii")`. -/
def b64OfString (s : String) : String :=
  ⟨b64EncodeBytes (utf8Bytes s)⟩

/-- Characters `shlex.quote` considers safe: word characters and the
punctuation `@ % + = : , . -` plus the forward slash. -/
def shlexSafe (c : Char) : Bool :=
  ('a' ≤ c && c ≤ 'z') || ('A' ≤ c && c ≤ 'Z') || isAsciiDigit c ||
  c = '_' || c = '@' || c = '%' || c = '+' || c = '=' || c = ':' ||
  c = ',' || c = '.' || c = '/' || c = '-'

/-- Embedding of `shlex.quote`. -/
def shlexQuote (s : String) : String :=
  if s = "" then "\x27\x27"
  else if s.data.all shlexSafe then s
  else "\x27" ++ (⟨s.data.flatMap (fun c =>
    if c = squote then "\x27\"\x27\"\x27".data else [c])⟩ : String) ++ "\x27"

/-- Python truthiness of an optional environment string. -/
def optTruthy : Option String → Bool
  | some s => s ≠ ""
  | none => false

/-! ## Sandbox Execution Manager (`SandboxManager`, sandbox/manager.py) -/

/-- The fixed runtime image of the manager. -/
def managerImage : String := "python:3.10-slim"

/-- Configuration read by `SandboxManager.__init__` from the environment. -/
structure ManagerConfig where
  remoteHost : Option String
  remoteKeyPath : Option String

/-- The `pip install … && ` prefix shared by both execution paths. -/
def installCmd (packages : List String) : String :=
  if packages.isEmpty then "" else "pip install " ++ String.intercalate " " packages ++ " && "

/-- The heredoc that decodes and runs the base64-encoded payload. -/
def pythonBlock (code : String) : String :=
  "python - <<\x27PY\x27\nimport base64\nexec(base64.b64decode(\x27" ++ b64OfString code ++
  "\x27).decode(\x27utf-8\x27))\nPY"

/-- The container command built by `_run_local` (manager.py:38–44). -/
def localCommand (code : String) (packages : List String) : String :=
  "sh -c \"" ++ installCmd packages ++ pythonBlock code ++ "\""

/-- The remote `docker run` command built by `_run_remote`
(manager.py:86–92): note the `--rm` flag and the identical image and
resource caps. -/
def remoteDockerCmd (name code : String) (packages : List String) : String :=
  "docker run --rm " ++ "--name " ++ name ++ " " ++
  "--network none --memory 256m --cpus 0.5 " ++
  managerImage ++ " sh -c " ++ shlexQuote (installCmd packages ++ pythonBlock code)

/-- Observable events of a manager execution. -/
inductive MEvent where
  | createLocal (name : String) (command : String)
  | removeLocal
  | sshConnect
  | sshExecDockerRun (command : String)
  | sshExecRemove (name : String)
  | sshClose

/-- Oracle for the local docker path: what each external call does. -/
structure LocalOracle where
  runContainer : Except String Unit
  wait : Except String (Option Int)
  logs : Except String String
  containerName : String

/-- Oracle for the remote ssh path. -/
structure RemoteOracle where
  paramikoAvailable : Bool
  connect : Except String Unit
  execRun : Except String Unit
  recvExit : Except String Int
  readOut : Except String String
  readErr : Except String String
  containerName : String

/-- The generic failure outcome `{"exit_code": 1, "error": str(exc)}`. -/
def errOutcome (e : String) : Val :=
  .vdict (.cons "exit_code" (.vint 1) (.cons "error" (.vstr e) .nil))

/-- The `StatusCode` field of `container.wait` as a value (`None` when the
key is missing). -/
def statusVal : Option Int → Val
  | some n => .vint n
  | none => .vnull

/-- Embedding of `SandboxManager._run_local` (manager.py:32–68): launch a
fresh container (the `containers.run` call also passes `remove=True`, the
runtime's own removal-on-exit policy), wait, read logs; any exception
becomes a failure outcome; the `finally` block attempts explicit removal
exactly when a handle was obtained (removal failures are swallowed and do
not affect the outcome). -/
def runLocal (o : LocalOracle) (code : String) (packages : List String) :
    Val × List MEvent :=
  let name := "sandbox_" ++ o.containerName
  let cmd := localCommand code packages
  match o.runContainer with
  | .error e => (errOutcome e, [])
  | .ok () =>
      match o.wait with
      | .error e => (errOutcome e, [.createLocal name cmd, .removeLocal])
      | .ok status =>
          match o.logs with
          | .error e => (errOutcome e, [.createLocal name cmd, .removeLocal])
          | .ok lg =>
              (.vdict (.cons "exit_code" (statusVal status) (.cons "stdout" (.vstr lg) .nil)),
               [.createLocal name cmd, .removeLocal])

/-- Embedding of `SandboxManager._run_remote` (manager.py:70–118): missing
paramiko or key path return failure outcomes before any ssh work; inside
the `try`, any exception leads to one best-effort `docker rm -f` and a
failure outcome; on completion the outcome carries the exit status and
output, and cleanup is left to the `--rm` flag of the remote command.  The
`finally` always closes the client. -/
def runRemote (cfg : ManagerConfig) (o : RemoteOracle) (code : String)
    (packages : List String) : Val × List MEvent :=
  if !o.paramikoAvailable then (errOutcome "paramiko is not installed", [])
  else if !(optTruthy cfg.remoteKeyPath) then
    (errOutcome "SANDBOX_REMOTE_KEY_PATH is not set", [])
  else
    let name := "sandbox_" ++ o.containerName
    let cmd := remoteDockerCmd name code packages
    match o.connect with
    | .error e => (errOutcome e, [.sshConnect, .sshExecRemove name, .sshClose])
    | .ok () =>
        match o.execRun with
        | .error e =>
            (errOutcome e, [.sshConnect, .sshExecDockerRun cmd, .sshExecRemove name, .sshClose])
        | .ok () =>
            match o.recvExit with
            | .error e =>
                (errOutcome e,
                 [.sshConnect, .sshExecDockerRun cmd, .sshExecRemove name, .sshClose])
            | .ok exitCode =>
                match o.readOut with
                | .error e =>
                    (errOutcome e,
                     [.sshConnect, .sshExecDockerRun cmd, .sshExecRemove name, .sshClose])
                | .ok out =>
                    match o.readErr with
                    | .error e =>
                        (errOutcome e,
                         [.sshConnect, .sshExecDockerRun cmd, .sshExecRemove name, .sshClose])
                    | .ok err =>
                        let events := [MEvent.sshConnect, .sshExecDockerRun cmd, .sshClose]
                        if exitCode ≠ 0 then
                          (.vdict (.cons "exit_code" (.vint exitCode)
                            (.cons "error" (.vstr (if err ≠ "" then err else out)) .nil)),
                           events)
                        else
                          (.vdict (.cons "exit_code" (.vint exitCode)
                            (.cons "stdout" (.vstr out) (.cons "stderr" (.vstr err) .nil))),
                           events)

/-- Embedding of `SandboxManager.run_code` (manager.py:26–30): the remote
path is taken whenever `SANDBOX_REMOTE_HOST` is truthy, otherwise the
local path — the local runtime's reachability is not consulted. -/
def managerRunCode (cfg : ManagerConfig) (oL : LocalOracle) (oR : RemoteOracle)
    (code : String) (packages : List String) : Val × List MEvent :=
  if optTruthy cfg.remoteHost then runRemote cfg oR code packages
  else runLocal oL code packages

/-! ## Sandbox HTTP endpoint (`run`, sandbox/main.py:17–25) -/

/-- The endpoint's acceptance test `result.get("exit_code") in (0, None)`
(the manager only ever produces integer or `None` exit codes, so plain
matching on those is faithful). -/
def exitCodeAccepted (result : VDict) : Bool :=
  match result.lookup "exit_code" with
  | none => true
  | some .vnull => true
  | some (.vint n) => n = 0
  | some _ => false

/-- Embedding of the `/run` endpoint: an outcome whose `exit_code` is
neither `0` nor `None`/missing is re-raised as an HTTP 400 error instead
of being returned. -/
def sandboxEndpointRun (result : VDict) : Except String Val :=
  if exitCodeAccepted result then .ok (.vdict result)
  else
    .error ("HTTPException 400: " ++
      (match result.lookup "error" with
       | some (.vstr e) => e
       | _ => "Sandbox execution failed"))

/-! ## Sandbox client (`SandboxClient`, clients/sandbox_client.py) -/

/-- Configuration read by `SandboxClient.__init__`. -/
structure ClientConfig where
  baseUrl : String
  execContainer : Option String
  innerContainer : Option String
  sshHost : Option String
  sshKeyPath : Option String

/-- Oracle for the client's external calls. -/
structure ClientOracle where
  dockerGet : Except String Unit
  execRunExit : Int
  execRunOut : String
  httpResponse : Except String Val
  sshKeyLoad : Except String Unit
  sshConnect : Except String Unit
  sshRecvExit : Except String Int
  sshReadOut : Except String String
  sshReadErr : Except String String

/-- Observable events of a client execution. -/
inductive CEvent where
  | dockerExecRun (command : String)
  | httpPost
  | sshExecRun (command : String)

/-- The `docker exec {inner} ` prefix used when an inner container is
configured. -/
def innerPrefix (cfg : ClientConfig) : String :=
  match cfg.innerContainer with
  | some inner => if inner ≠ "" then "docker exec " ++ inner ++ " " else ""
  | none => ""

/-- The command built by `_run_via_exec` (sandbox_client.py:64–70). -/
def execCommand (cfg : ClientConfig) (code : String) (packages : List String) : String :=
  "bash -lc \"" ++ innerPrefix cfg ++ installCmd packages ++ pythonBlock code ++ "\""

/-- The command built by `_run_via_ssh_exec` (sandbox_client.py:83–90). -/
def sshExecCommand (cfg : ClientConfig) (code : String) (packages : List String) : String :=
  "docker exec " ++ (cfg.execContainer.getD "") ++ " " ++ innerPrefix cfg ++
  "bash -lc \"" ++ installCmd packages ++ pythonBlock code ++ "\""

/-- Embedding of `SandboxClient._run_via_ssh_exec` (sandbox_client.py:76):
a missing key path raises; key loading and connecting raise on failure
(uncaught); inside the `try`, channel errors raise as well; on success the
payload carries exit code, stripped stdout, and stderr when non-empty. -/
def clientRunViaSsh (cfg : ClientConfig) (o : ClientOracle) (code : String)
    (packages : List String) : List CEvent × Except String Val :=
  if !(optTruthy cfg.sshKeyPath) then
    ([], .error "RuntimeError: SANDBOX_REMOTE_KEY_PATH is not set")
  else
    match o.sshKeyLoad with
    | .error e => ([], .error e)
    | .ok () =>
        match o.sshConnect with
        | .error e => ([], .error e)
        | .ok () =>
            let cmd := sshExecCommand cfg code packages
            match o.sshRecvExit with
            | .error e => ([.sshExecRun cmd], .error e)
            | .ok rc =>
                match o.sshReadOut with
                | .error e => ([.sshExecRun cmd], .error e)
                | .ok rawOut =>
                    match o.sshReadErr with
                    | .error e => ([.sshExecRun cmd], .error e)
                    | .ok rawErr =>
                        let out := pyStrip rawOut
                        let err := pyStrip rawErr
                        let payload : VDict :=
                          if err ≠ "" then
                            .cons "exit_code" (.vint rc) (.cons "stdout" (.vstr out)
                              (.cons "stderr" (.vstr err) .nil))
                          else
                            .cons "exit_code" (.vint rc) (.cons "stdout" (.vstr out) .nil)
                        ([.sshExecRun cmd], .ok (.vdict payload))

/-- Embedding of `SandboxClient._run_via_exec` (sandbox_client.py:49–74):
if the docker runtime is reachable the job runs by `exec` in the
configured container; if it is unreachable, fall back to the ssh path when
an ssh host is configured, else raise a `RuntimeError`. -/
def clientRunViaExec (cfg : ClientConfig) (o : ClientOracle) (code : String)
    (packages : List String) : List CEvent × Except String Val :=
  match o.dockerGet with
  | .ok () =>
      let cmd := execCommand cfg code packages
      ([.dockerExecRun cmd],
       .ok (.vdict (.cons "exit_code" (.vint o.execRunExit)
         (.cons "stdout" (.vstr o.execRunOut) .nil))))
  | .error _ =>
      if optTruthy cfg.sshHost then clientRunViaSsh cfg o code packages
      else ([], .error "RuntimeError: docker socket unreachable")

/-- Embedding of `SandboxClient.run_code` (sandbox_client.py:30–47): the
exec path when `SANDBOX_EXEC_CONTAINER` is set, else the HTTP path when a
base URL is configured, else a raised `RuntimeError`.  The HTTP oracle
models `urlopen` + `json.loads`; an HTTP 4xx/5xx answer raises. -/
def clientRunCode (cfg : ClientConfig) (o : ClientOracle) (code : String)
    (packages : List String) : List CEvent × Except String Val :=
  if optTruthy cfg.execContainer then clientRunViaExec cfg o code packages
  else if cfg.baseUrl = "" then
    ([], .error "RuntimeError: SANDBOX_SERVER_URL or SANDBOX_EXEC_CONTAINER required")
  else ([.httpPost], o.httpResponse)

/-! ## Observation helpers and concrete fixtures used by the claims -/

/-- Did the computation succeed (no exception)? -/
def isOkE : Except String α → Bool
  | .ok _ => true
  | .error _ => false

/-- Number of explicit local removal attempts in a trace. -/
def countRemoveLocal : List MEvent → Nat
  | [] => 0
  | .removeLocal :: tl => countRemoveLocal tl + 1
  | _ :: tl => countRemoveLocal tl

/-- Number of explicit remote `docker rm -f` attempts in a trace. -/
def countRemoveRemote : List MEvent → Nat
  | [] => 0
  | .sshExecRemove _ :: tl => countRemoveRemote tl + 1
  | _ :: tl => countRemoveRemote tl

/-- Did the trace dispatch the remote `docker run` command? -/
def hasDockerRunEvent : List MEvent → Bool
  | [] => false
  | .sshExecDockerRun _ :: _ => true
  | _ :: tl => hasDockerRunEvent tl

/-- Did the trace create a local container? -/
def hasCreateLocal : List MEvent → Bool
  | [] => false
  | .createLocal _ _ :: _ => true
  | _ :: tl => hasCreateLocal tl

/-- Did the client trace go over ssh? -/
def hasSshRunEvent : List CEvent → Bool
  | [] => false
  | .sshExecRun _ :: _ => true
  | _ :: tl => hasSshRunEvent tl

/-- Was a local container handle obtained? -/
def localCreated (o : LocalOracle) : Bool :=
  isOkE o.runContainer

/-- Did the local path hit any exception? -/
def localFailedB (o : LocalOracle) : Bool :=
  !(isOkE o.runContainer && isOkE o.wait && isOkE o.logs)

/-- Does the remote path take its `except` branch (configuration checks
passed but some ssh/channel call raised)? -/
def remoteExceptBranch (cfg : ManagerConfig) (o : RemoteOracle) : Bool :=
  o.paramikoAvailable && optTruthy cfg.remoteKeyPath &&
  !(isOkE o.connect && isOkE o.execRun && isOkE o.recvExit &&
    isOkE o.readOut && isOkE o.readErr)

/-- Is the remote outcome a failure (configuration, exception, or
non-zero exit)? -/
def remoteFailedB (cfg : ManagerConfig) (o : RemoteOracle) : Bool :=
  if !o.paramikoAvailable || !(optTruthy cfg.remoteKeyPath) then true
  else
    match o.connect, o.execRun, o.recvExit, o.readOut, o.readErr with
    | .ok _, .ok _, .ok n, .ok _, .ok _ => n ≠ 0
    | _, _, _, _, _ => true

/-- Does the outcome dict carry the given key? -/
def outcomeHasKey (k : String) : Val → Bool
  | .vdict d => (d.lookup k).isSome
  | _ => false

/-- C1 fixture: sandbox-call oracle whose outcome carries a sensitive key
(the sandbox HTTP server may answer with arbitrary JSON). -/
def c1Env : OrchEnv :=
  ⟨.ok (.vdict (.cons "exit_code" (.vint 0)
      (.cons "stdout" (.vstr "done") (.cons "password" (.vstr "hunter2") .nil)))),
   .ok .vnull, "base64", fun _ => ""⟩

/-- C1 fixture: an `execute_in_sandbox` call with harmless code. -/
def c1Call : ToolCall :=
  ⟨.vstr "execute_in_sandbox", .vdict (.cons "code" (.vstr "print(1)") .nil)⟩

/-- C1 fixture: the entry the controller stores for this call. -/
def c1Entry : Val :=
  .vdict (.cons "tool" (.vstr "execute_in_sandbox")
    (.cons "result" (.vdict (.cons "exit_code" (.vint 0)
      (.cons "stdout" (.vstr "done") (.cons "password" (.vstr "hunter2") .nil)))) .nil))

/-- C1 fixture: an environment whose registry returns a payload with
sensitive keys. -/
def c1wEnv : OrchEnv :=
  ⟨.ok .vnull,
   .ok (.vdict (.cons "password" (.vstr "p")
     (.cons "a" (.vdict (.cons "card_number" (.vstr "n") (.cons "b" (.vint 1) .nil))) .nil))),
   "base64", fun _ => ""⟩

/-- C1/C2 fixture: a registry payload with sensitive keys at two depths. -/
def c2Payload : Val :=
  .vdict (.cons "password" (.vstr "p")
    (.cons "a" (.vdict (.cons "card_number" (.vstr "n") (.cons "b" (.vint 1) .nil))) .nil))

/-- C3/C6 fixture: manager configured with a remote host and key. -/
def c3Cfg : ManagerConfig :=
  ⟨some "remote.example", some "/keys/id_rsa"⟩

/-- C3 fixture: a fully successful remote execution. -/
def c3Oracle : RemoteOracle :=
  ⟨true, .ok (), .ok (), .ok 0, .ok "ok", .ok "", "c3"⟩

/-- C4 fixture: the local container runtime is unreachable. -/
def c4Oracle : LocalOracle :=
  ⟨.error "docker daemon unreachable", .ok none, .ok "", "c4"⟩

/-- C4 fixture: the failure outcome the manager returns for `c4Oracle`. -/
def c4FailDict : VDict :=
  .cons "exit_code" (.vint 1) (.cons "error" (.vstr "docker daemon unreachable") .nil)

/-- C5 fixture: an environment whose oracles are never consulted. -/
def c5Env : OrchEnv :=
  ⟨.ok .vnull, .ok .vnull, "base64", fun _ => ""⟩

/-- C5 fixture: an `execute_in_sandbox` call whose code imports `os`. -/
def c5Call : ToolCall :=
  ⟨.vstr "execute_in_sandbox", .vdict (.cons "code" (.vstr "import os\nprint(1)") .nil)⟩

/-- C6 fixture: manager configured with a remote host and key. -/
def c6Cfg : ManagerConfig :=
  ⟨some "remote.example", some "/keys/id_rsa"⟩

/-- C6 fixture: a perfectly reachable local runtime. -/
def c6Local : LocalOracle :=
  ⟨.ok (), .ok (some 0), .ok "out", "c6"⟩

/-- C6 fixture: the remote oracle actually used by the dispatch. -/
def c6Remote : RemoteOracle :=
  ⟨true, .ok (), .ok (), .ok 0, .ok "out", .ok "", "c6r"⟩

/-- C6 fixture: client configured for exec with an ssh fallback. -/
def c6ClientCfg : ClientConfig :=
  ⟨"", some "sandbox", none, some "host.example", some "/keys/id_rsa"⟩

/-- C6 fixture: docker unreachable, ssh healthy. -/
def c6ClientOracle : ClientOracle :=
  ⟨.error "docker socket unavailable", 0, "", .error "unused",
   .ok (), .ok (), .ok 0, .ok "x", .ok ""⟩

/-- C7 fixture: the executable-call block of the claim. -/
def c7Text : String :=
  "```tool_code\nget_rentals(user_id=13, days=7)\n```"

/-- C7 fixture: the expected extracted call. -/
def c7Call : ToolCall :=
  ⟨.vstr "get_rentals", .vdict (.cons "user_id" (.vint 13) (.cons "days" (.vint 7) .nil))⟩

/-- C8 fixture: the plan as the whole trimmed message. -/
def c8WholeText : String :=
  "\x7b\"actions\":[\x7b\"function\":\"get_user_profile\",\"parameters\":\x7b\"user_id\":13\x7d\x7d]\x7d"

/-- C8 fixture: the same plan as a fenced JSON block. -/
def c8FencedText : String :=
  "```json\n\x7b\"actions\":[\x7b\"function\":\"get_user_profile\",\"parameters\":\x7b\"user_id\":13\x7d\x7d]\x7d\n```"

/-- C8 fixture: the expected extracted call. -/
def c8Call : ToolCall :=
  ⟨.vstr "get_user_profile", .vdict (.cons "user_id" (.vint 13) .nil)⟩

deriving instance DecidableEq for Val

/-! ## Helper lemmas -/

/-- Splitting at the first separator of `k ++ sep :: v` recovers `(k, v)`
when `k` is separator-free. -/
theorem splitOnce_append_eq (sep : Char) :
    ∀ (k v : List Char), sep ∉ k → splitOnce sep (k ++ sep :: v) = some (k, v)
  | [], v, _ => by simp [splitOnce]
  | c :: k', v, h => by
      have hc : ¬c = sep := fun hcv => h (hcv ▸ List.mem_cons_self c k')
      have ih := splitOnce_append_eq sep k' v (fun hm => h (List.mem_cons_of_mem _ hm))
      simp [splitOnce, hc, ih]

/-- Key aliasing is idempotent. -/
theorem normalizeKey_idem (k : String) : normalizeKey (normalizeKey k) = normalizeKey k := by
  by_cases h : compactKey k = "userid"
  · simp [normalizeKey, h]
  · simp [normalizeKey, h]

mutual
/-- Value normalization is idempotent. -/
theorem normVal_idem : ∀ v : Val, normVal (normVal v) = normVal v
  | .vnull => rfl
  | .vbool _ => rfl
  | .vint _ => rfl
  | .vfloat _ => rfl
  | .vstr s => by
      by_cases h1 : isDigitsL (stripL s.data)
      · simp [normVal, h1]
      · by_cases h2 : pyFloatOk ⟨stripL s.data⟩
        · simp [normVal, h1, h2]
        · simp [normVal, h1, h2]
  | .vlist l => by simp [normVal, normList_idem l]
  | .vdict d => by simp [normVal, normDict_idem d]

/-- List normalization is idempotent. -/
theorem normList_idem : ∀ l : VList, normList (normList l) = normList l
  | .nil => rfl
  | .cons v tl => by simp [normList, normVal_idem v, normList_idem tl]

/-- Dict normalization is idempotent. -/
theorem normDict_idem : ∀ d : VDict, normDict (normDict d) = normDict d
  | .nil => rfl
  | .cons k v tl => by simp [normDict, normalizeKey_idem k, normVal_idem v, normDict_idem tl]
end

/-! ## Claim theorems -/

/-- C9: argument normalization is idempotent — normalizing an
already-normalized structure (nested dicts and lists included) returns it
unchanged; canonical keys stay canonical and already-typed int/float
values are left untouched. -/
theorem c9_normalize_idempotent :
    (∀ d : VDict, normDict (normDict d) = normDict d) ∧
    (∀ v : Val, normVal (normVal v) = normVal v) ∧
    normalizeKey "user_id" = "user_id" ∧
    (∀ n : Int, normVal (.vint n) = .vint n) ∧
    (∀ s : String, normVal (.vfloat s) = .vfloat s) :=
  ⟨normDict_idem, normVal_idem, by decide, fun _ => rfl, fun _ => rfl⟩

/-- C7: the executable-call block `get_rentals(user_id=13, days=7)` yields
exactly one ToolCall with integer arguments; in general a pair's value is
stripped of whitespace and surrounding quotes and then parsed as int when
all-digit, as float when float-parseable, and kept as a string otherwise. -/
theorem c7_executable_call_extraction :
    extractToolCalls c7Text = .ok [c7Call] ∧
    (∀ v : List Char, isDigitsL v = true → toolValueOfStripped v = .vint (digitsToNat v)) ∧
    (∀ v : List Char, isDigitsL v = false → pyFloatOk ⟨v⟩ = true →
      toolValueOfStripped v = .vfloat ⟨v⟩) ∧
    (∀ v : List Char, isDigitsL v = false → pyFloatOk ⟨v⟩ = false →
      toolValueOfStripped v = .vstr ⟨v⟩) ∧
    (∀ (k raw : List Char) (acc : VDict), '=' ∉ k →
      addCallPair acc (k ++ '=' :: raw) =
        acc.setKey ⟨stripL k⟩
          (toolValueOfStripped (stripCharL squote (stripCharL '"' (stripL raw))))) := by
  refine ⟨rfl, ?_, ?_, ?_, ?_⟩
  · intro v h; simp [toolValueOfStripped, h]
  · intro v h1 h2; simp [toolValueOfStripped, h1, h2]
  · intro v h1 h2; simp [toolValueOfStripped, h1, h2]
  · intro k raw acc h
    simp [addCallPair, splitOnce_append_eq '=' k raw h]

/-- C7 witness: the general clauses evaluated at `13`, `3.5` and a quoted
string value. -/
theorem c7_executable_call_extraction_witness :
    toolValueOfStripped "13".data = .vint 13 ∧
    toolValueOfStripped "3.5".data = .vfloat "3.5" ∧
    addCallPair .nil ("city".data ++ '=' :: " \"seoul\"".data) =
      VDict.cons "city" (.vstr "seoul") .nil := by
  obtain ⟨-, h2, h3, -, h5⟩ := c7_executable_call_extraction
  refine ⟨?_, ?_, ?_⟩
  · rw [h2 _ (by decide)]; rfl
  · rw [h3 _ (by decide) (by decide)]
  · rw [h5 "city".data " \"seoul\"".data .nil (by decide)]; rfl

/-- C8 counterexample: for the fenced JSON plan the Extractor yields two
identical ToolCalls (both fence strategies match the same block), not
exactly one as claimed. -/
theorem c8_counterexample :
    extractToolCalls c8FencedText = .ok [c8Call, c8Call] ∧
    ([c8Call, c8Call].length = 1 → False) :=
  ⟨rfl, by decide⟩

/-- C8 (amended): the whole-trimmed-message JSON plan yields exactly one
ToolCall named `get_user_profile` with `{user_id: 13}`; the same plan in a
fenced ```json block yields that ToolCall twice, because the actions-JSON
and generic JSON-fence strategies both match the block. -/
theorem c8_json_plan_extraction :
    extractToolCalls c8WholeText = .ok [c8Call] ∧
    extractToolCalls c8FencedText = .ok [c8Call, c8Call] :=
  ⟨rfl, rfl⟩

mutual
/-- After sanitization no sensitive key occurs anywhere in a value. -/
theorem sanitize_no_sensitive_val (k : String) (hk : k ∈ sensitiveKeys) :
    ∀ v : Val, hasKeyV k (sanitizePayload v) = false
  | .vnull => rfl
  | .vbool _ => rfl
  | .vint _ => rfl
  | .vfloat _ => rfl
  | .vstr _ => rfl
  | .vlist l => by simp [sanitizePayload, hasKeyV, sanitize_no_sensitive_list k hk l]
  | .vdict d => by simp [sanitizePayload, hasKeyV, sanitize_no_sensitive_dict k hk d]

/-- List case of `sanitize_no_sensitive_val`. -/
theorem sanitize_no_sensitive_list (k : String) (hk : k ∈ sensitiveKeys) :
    ∀ l : VList, hasKeyL k (sanitizeList l) = false
  | .nil => rfl
  | .cons v tl => by
      simp [sanitizeList, hasKeyL, sanitize_no_sensitive_val k hk v,
        sanitize_no_sensitive_list k hk tl]

/-- Dict case of `sanitize_no_sensitive_val`. -/
theorem sanitize_no_sensitive_dict (k : String) (hk : k ∈ sensitiveKeys) :
    ∀ d : VDict, hasKeyD k (sanitizeDict d) = false
  | .nil => rfl
  | .cons k' v tl => by
      by_cases h : k' ∈ sensitiveKeys
      · simp [sanitizeDict, h, sanitize_no_sensitive_dict k hk tl]
      · have hne : ¬(k' = k) := fun he => h (he ▸ hk)
        simp [sanitizeDict, h, hasKeyD, hne, sanitize_no_sensitive_val k hk v,
          sanitize_no_sensitive_dict k hk tl]
end

/-- Sanitization preserves the entries under non-sensitive keys, with the
values themselves sanitized recursively. -/
theorem sanitizeDict_lookup (k : String) (hk : k ∉ sensitiveKeys) :
    ∀ d : VDict, (sanitizeDict d).lookup k = (d.lookup k).map sanitizePayload
  | .nil => rfl
  | .cons k' v tl => by
      by_cases h : k' ∈ sensitiveKeys
      · have hne : ¬(k' = k) := fun he => hk (he ▸ h)
        simp [sanitizeDict, h, VDict.lookup, hne, sanitizeDict_lookup k hk tl]
      · by_cases he : k' = k
        · subst he
          simp [sanitizeDict, h, VDict.lookup]
        · simp [sanitizeDict, h, VDict.lookup, he, sanitizeDict_lookup k hk tl]

/-- C2: for every structured payload, the sanitizer's output contains no
sensitive key at any nesting depth, and every entry under a non-sensitive
key is preserved (recursively sanitized). -/
theorem c2_sanitizer_no_sensitive_keys :
    (∀ (p : Val) (k : String), k ∈ sensitiveKeys → hasKeyV k (sanitizePayload p) = false) ∧
    (∀ (d : VDict) (k : String), k ∉ sensitiveKeys →
      (sanitizeDict d).lookup k = (d.lookup k).map sanitizePayload) :=
  ⟨fun p k hk => sanitize_no_sensitive_val k hk p,
   fun d k hk => sanitizeDict_lookup k hk d⟩

/-- C2 witness: a payload with sensitive keys at two depths loses them
all, and a non-sensitive entry survives sanitization. -/
theorem c2_sanitizer_no_sensitive_keys_witness :
    hasKeyV "password" (sanitizePayload c2Payload) = false ∧
    (sanitizeDict (.cons "b" (.vint 1) .nil)).lookup "b" = some (.vint 1) := by
  obtain ⟨h1, h2⟩ := c2_sanitizer_no_sensitive_keys
  refine ⟨h1 c2Payload "password" (by decide), ?_⟩
  rw [h2 (.cons "b" (.vint 1) .nil) "b" (by decide)]
  rfl

set_option maxRecDepth 16000 in
/-- C1 counterexample: an `execute_in_sandbox` result is stored in the
results list without passing through `_sanitize_payload`, so a sensitive
key inside the sandbox outcome reaches the stored ToolResult. -/
theorem c1_counterexample :
    (execToolCall c1Env "hi" c1Call .nil).2 = .ok (c1Entry, .nil) ∧
    hasKeyV "password" c1Entry = true :=
  ⟨rfl, rfl⟩

/-- C1 (amended): registry tool results do pass through
`_sanitize_payload`, so their stored ToolResult never contains a sensitive
key; `execute_in_sandbox` results are stored with only image-marker
extraction, bypassing payload sanitization. -/
theorem c1_sanitization_coverage :
    ∀ (env : OrchEnv) (msg name : String) (args : Val) (results : VList)
      (r entry : Val) (imgs : VList) (k : String),
      k ∈ sensitiveKeys →
      name ≠ "execute_in_sandbox" →
      env.registryExec = .ok r →
      (execToolCall env msg ⟨.vstr name, args⟩ results).2 = .ok (entry, imgs) →
      hasKeyV k entry = false := by
  intro env msg name args results r entry imgs k hk hname hreg hrun
  have hsan := sanitize_no_sensitive_val k hk r
  cases hp : parseArgs args with
  | error e => simp [execToolCall, hp] at hrun
  | ok a =>
      simp [execToolCall, hp, isSandboxAction, hname, hreg] at hrun
      obtain ⟨rfl, -⟩ := hrun
      simp [sensitiveKeys] at hk
      rcases hk with rfl | rfl | rfl <;>
        simp [hasKeyV, hasKeyD, hsan]

/-- C1 witness: a registry call whose payload holds sensitive keys is
stored sanitized. -/
theorem c1_sanitization_coverage_witness :
    "password" ∈ sensitiveKeys ∧
    hasKeyV "password" (.vdict (.cons "tool" (.vstr "get_user_profile")
      (.cons "result" (.vdict (.cons "a" (.vdict (.cons "b" (.vint 1) .nil)) .nil)) .nil)))
      = false := by
  refine ⟨by decide, ?_⟩
  exact c1_sanitization_coverage c1wEnv "hi" "get_user_profile" (.vdict .nil) .nil
    c2Payload _ .nil "password" (by decide) (by decide) rfl rfl

/-- C5: when the built sandbox code matches the blocklist, the loop body
raises a `ValueError` before anything else happens — the trace is empty,
so the sandbox client's `run_code` is never invoked and no container can
have been created for this job. -/
theorem c5_validation_blocks_execution :
    ∀ (env : OrchEnv) (msg : String) (call : ToolCall) (results : VList) (args : VDict),
      parseArgs call.arguments = .ok args →
      isSandboxAction call.name = true →
      blockedCode (buildSandboxCode (argStr? args "code") (args.getN "task")
        (argInputs args) results) = true →
      execToolCall env msg call results =
        ([], .error "ValueError: Sandbox code contains a forbidden keyword") := by
  intro env msg call results args hp hs hb
  simp [execToolCall, hp, hs, validateCode, hb]

set_option maxRecDepth 16000 in
/-- C5 witness: a call whose code is `import os` is rejected with an empty
trace. -/
theorem c5_validation_blocks_execution_witness :
    parseArgs c5Call.arguments = .ok (.cons "code" (.vstr "import os\nprint(1)") .nil) ∧
    blockedCode (buildSandboxCode
      (argStr? (.cons "code" (.vstr "import os\nprint(1)") .nil) "code")
      (VDict.getN "task" (.cons "code" (.vstr "import os\nprint(1)") .nil))
      (argInputs (.cons "code" (.vstr "import os\nprint(1)") .nil)) .nil) = true ∧
    execToolCall c5Env "hi" c5Call .nil =
      ([], .error "ValueError: Sandbox code contains a forbidden keyword") := by
  refine ⟨rfl, rfl, ?_⟩
  exact c5_validation_blocks_execution c5Env "hi" c5Call .nil
    (.cons "code" (.vstr "import os\nprint(1)") .nil) rfl rfl rfl

/-- C3 counterexample: a fully successful remote execution creates and
runs the remote container but the manager performs zero explicit teardown
attempts on that path (cleanup is delegated to the `--rm` flag). -/
theorem c3_counterexample :
    hasDockerRunEvent (runRemote c3Cfg c3Oracle "print(1)" []).2 = true ∧
    isOkE c3Oracle.execRun = true ∧
    countRemoveRemote (runRemote c3Cfg c3Oracle "print(1)" []).2 = 0 :=
  ⟨rfl, rfl, rfl⟩

/-- A pattern at the head survives appending on the right. -/
theorem headIs_append_left :
    ∀ (p a b : List Char), headIs p a = true → headIs p (a ++ b) = true
  | [], _, _, _ => rfl
  | _ :: _, [], _, h => by simp [headIs] at h
  | p :: ps, c :: cs, b, h => by
      simp [headIs] at h ⊢
      exact ⟨h.1, headIs_append_left ps cs b h.2⟩

/-- The empty pattern occurs everywhere. -/
theorem containsSeq_nil : ∀ b : List Char, containsSeq [] b = true
  | [] => rfl
  | _ :: _ => by simp [containsSeq, headIs]

/-- A substring occurrence survives appending on the right. -/
theorem containsSeq_append_left :
    ∀ (p a b : List Char), containsSeq p a = true → containsSeq p (a ++ b) = true
  | p, [], b, h => by
      cases p with
      | nil => exact containsSeq_nil b
      | cons q qs => simp [containsSeq, headIs] at h
  | p, c :: cs, b, h => by
      simp [containsSeq] at h ⊢
      rcases h with h | h
      · exact Or.inl (headIs_append_left p (c :: cs) b h)
      · exact Or.inr (containsSeq_append_left p cs b h)

/-- C3 (amended): `_run_local` attempts explicit removal exactly once
whenever a container handle was obtained (on success, timeout and error
paths alike); `_run_remote` performs its explicit `docker rm -f` exactly
once on exception paths and zero times on completion paths, where removal
is delegated to the `--rm` flag carried by the remote command. -/
theorem c3_teardown_attempts :
    (∀ (o : LocalOracle) (code : String) (pkgs : List String),
      countRemoveLocal (runLocal o code pkgs).2 = if localCreated o then 1 else 0) ∧
    (∀ (cfg : ManagerConfig) (o : RemoteOracle) (code : String) (pkgs : List String),
      countRemoveRemote (runRemote cfg o code pkgs).2 =
        if remoteExceptBranch cfg o then 1 else 0) ∧
    (∀ (name code : String) (pkgs : List String),
      containsSeq "--rm".data (remoteDockerCmd name code pkgs).data = true) := by
  refine ⟨?_, ?_, ?_⟩
  · intro o code pkgs
    obtain ⟨rc, w, lg, nm⟩ := o
    cases rc <;> cases w <;> cases lg <;>
      simp [runLocal, localCreated, isOkE, countRemoveLocal]
  · intro cfg o code pkgs
    obtain ⟨rh, rkp⟩ := cfg
    obtain ⟨pa, conn, er, re, ro, rerr, nm⟩ := o
    cases pa
    · simp [runRemote, remoteExceptBranch, countRemoveRemote]
    · cases rkp with
      | none => simp [runRemote, remoteExceptBranch, optTruthy, countRemoveRemote]
      | some s =>
          by_cases hs : s = ""
          · simp [runRemote, remoteExceptBranch, optTruthy, hs, countRemoveRemote]
          · cases conn <;> cases er <;> cases re <;> cases ro <;> cases rerr <;>
              first
              | (simp [runRemote, remoteExceptBranch, optTruthy, hs, isOkE, countRemoveRemote]
                 done)
              | (simp [runRemote, remoteExceptBranch, optTruthy, hs, isOkE]
                 split_ifs <;> simp [countRemoveRemote])
  · intro name code pkgs
    simp only [remoteDockerCmd, String.data_append]
    repeat apply containsSeq_append_left
    decide

/-- C4 counterexample: an unreachable container runtime yields a
structured failure outcome from the manager, but the sandbox HTTP endpoint
re-raises that outcome as an HTTP 400 error — the failure does escape the
sandbox execution path as an exception. -/
theorem c4_counterexample :
    (runLocal c4Oracle "print(1)" []).1 = .vdict c4FailDict ∧
    sandboxEndpointRun c4FailDict =
      .error "HTTPException 400: docker daemon unreachable" :=
  ⟨rfl, rfl⟩

/-- C4 (amended): the manager itself is total — every path returns an
outcome carrying an `exit_code`, with an `error` field exactly on failure
paths — but the HTTP endpoint converts every outcome whose `exit_code` is
neither `0` nor `None` into a raised error, so the controller proceeds to
final synthesis only when `run_code` returns without raising. -/
theorem c4_structured_outcomes :
    (∀ (o : LocalOracle) (code : String) (pkgs : List String),
      outcomeHasKey "exit_code" (runLocal o code pkgs).1 = true ∧
      outcomeHasKey "error" (runLocal o code pkgs).1 = localFailedB o) ∧
    (∀ (cfg : ManagerConfig) (o : RemoteOracle) (code : String) (pkgs : List String),
      outcomeHasKey "exit_code" (runRemote cfg o code pkgs).1 = true ∧
      outcomeHasKey "error" (runRemote cfg o code pkgs).1 = remoteFailedB cfg o) ∧
    (∀ d : VDict, isOkE (sandboxEndpointRun d) = exitCodeAccepted d) := by
  refine ⟨?_, ?_, ?_⟩
  · intro o code pkgs
    obtain ⟨rc, w, lg, nm⟩ := o
    cases rc <;> cases w <;> cases lg <;>
      simp [runLocal, errOutcome, outcomeHasKey, VDict.lookup, localFailedB, isOkE]
  · intro cfg o code pkgs
    obtain ⟨rh, rkp⟩ := cfg
    obtain ⟨pa, conn, er, re, ro, rerr, nm⟩ := o
    cases pa
    · simp [runRemote, errOutcome, outcomeHasKey, VDict.lookup, remoteFailedB]
    · cases rkp with
      | none => simp [runRemote, errOutcome, outcomeHasKey, VDict.lookup, remoteFailedB, optTruthy]
      | some s =>
          by_cases hs : s = ""
          · simp [runRemote, errOutcome, outcomeHasKey, VDict.lookup, remoteFailedB, optTruthy, hs]
          · cases conn <;> cases er <;> cases re <;> cases ro <;> cases rerr <;>
              first
              | (simp [runRemote, errOutcome, outcomeHasKey, VDict.lookup, remoteFailedB,
                   optTruthy, hs, isOkE]
                 done)
              | (simp [runRemote, errOutcome, outcomeHasKey, VDict.lookup, remoteFailedB,
                   optTruthy, hs, isOkE]
                 split_ifs <;>
                   simp_all [outcomeHasKey, VDict.lookup])
  · intro d
    by_cases h : exitCodeAccepted d <;> simp [sandboxEndpointRun, isOkE, h]

/-- C6 counterexample: with a remote host configured, a perfectly
reachable local runtime is bypassed — the manager dispatches to the remote
path and never creates a local container. -/
theorem c6_counterexample :
    isOkE c6Local.runContainer = true ∧
    managerRunCode c6Cfg c6Local c6Remote "print(1)" [] =
      runRemote c6Cfg c6Remote "print(1)" [] ∧
    hasCreateLocal (managerRunCode c6Cfg c6Local c6Remote "print(1)" []).2 = false :=
  ⟨rfl, rfl, rfl⟩

/-- C6 (amended): the manager selects the remote path exactly when
`SANDBOX_REMOTE_HOST` is truthy, regardless of local reachability; a
genuine fallback exists only in the client's `_run_via_exec`, which uses
ssh exactly when the local docker runtime is unreachable and an ssh host
is configured, and raises a `RuntimeError` (not a structured outcome) when
it is unreachable with no ssh host. -/
theorem c6_remote_selection :
    (∀ (cfg : ManagerConfig) (oL : LocalOracle) (oR : RemoteOracle) (code : String)
       (pkgs : List String),
      (optTruthy cfg.remoteHost = true →
        managerRunCode cfg oL oR code pkgs = runRemote cfg oR code pkgs) ∧
      (optTruthy cfg.remoteHost = false →
        managerRunCode cfg oL oR code pkgs = runLocal oL code pkgs)) ∧
    (∀ (cfg : ClientConfig) (o : ClientOracle) (code : String) (pkgs : List String),
      (isOkE o.dockerGet = true → hasSshRunEvent (clientRunViaExec cfg o code pkgs).1 = false) ∧
      (isOkE o.dockerGet = false → optTruthy cfg.sshHost = true →
        clientRunViaExec cfg o code pkgs = clientRunViaSsh cfg o code pkgs) ∧
      (isOkE o.dockerGet = false → optTruthy cfg.sshHost = false →
        clientRunViaExec cfg o code pkgs =
          ([], .error "RuntimeError: docker socket unreachable"))) := by
  refine ⟨?_, ?_⟩
  · intro cfg oL oR code pkgs
    constructor
    · intro h; simp [managerRunCode, h]
    · intro h; simp [managerRunCode, h]
  · intro cfg o code pkgs
    refine ⟨?_, ?_, ?_⟩
    · intro h
      cases hd : o.dockerGet with
      | error e => simp [hd, isOkE] at h
      | ok u => simp [clientRunViaExec, hd, hasSshRunEvent]
    · intro h hssh
      cases hd : o.dockerGet with
      | error e => simp [clientRunViaExec, hd, hssh]
      | ok u => simp [hd, isOkE] at h
    · intro h hssh
      cases hd : o.dockerGet with
      | error e => simp [clientRunViaExec, hd, hssh]
      | ok u => simp [hd, isOkE] at h

/-- C6 witness: the dispatch and fallback clauses at concrete
configurations. -/
theorem c6_remote_selection_witness :
    optTruthy c6Cfg.remoteHost = true ∧
    managerRunCode c6Cfg c6Local c6Remote "x" [] = runRemote c6Cfg c6Remote "x" [] ∧
    isOkE c6ClientOracle.dockerGet = false ∧
    optTruthy c6ClientCfg.sshHost = true ∧
    clientRunViaExec c6ClientCfg c6ClientOracle "x" [] =
      clientRunViaSsh c6ClientCfg c6ClientOracle "x" [] := by
  obtain ⟨h1, h2⟩ := c6_remote_selection
  exact ⟨rfl, (h1 c6Cfg c6Local c6Remote "x" []).1 rfl, rfl, rfl,
    ((h2 c6ClientCfg c6ClientOracle "x" []).2).1 rfl rfl⟩

/-- The newline split never produces an empty list of lines. -/
theorem splitNL_ne_nil : ∀ l : List Char, splitNL l ≠ []
  | [] => by simp [splitNL]
  | c :: cs => by
      simp only [splitNL]
      by_cases h : c = '\n'
      · simp [h]
      · rw [if_neg h]
        cases hs : splitNL cs <;> simp

/-- Equation: splitting after a newline. -/
theorem splitNL_cons_nl (cs : List Char) : splitNL ('\n' :: cs) = [] :: splitNL cs := by
  simp [splitNL]

/-- Equation: splitting after a non-newline character. -/
theorem splitNL_cons_ne (c : Char) (cs : List Char) (h : ¬c = '\n') :
    splitNL (c :: cs) =
      match splitNL cs with
      | l :: ls => (c :: l) :: ls
      | [] => [[c]] := by
  simp only [splitNL]
  rw [if_neg h]

/-- Every complete line of `a` is still a (complete) line of `a ++ b`:
dropping the unfinished last piece, the split of `a` is a prefix of the
split of `a ++ b`. -/
theorem splitNL_dropLast_front :
    ∀ a b : List Char, (splitNL a).dropLast <+: splitNL (a ++ b)
  | [], b => by simp [splitNL]
  | c :: a', b => by
      have hne := splitNL_ne_nil a'
      by_cases h : c = '\n'
      · subst h
        cases hs : splitNL a' with
        | nil => exact absurd hs hne
        | cons x xs =>
            have ih := splitNL_dropLast_front a' b
            rw [hs] at ih
            rw [List.cons_append, splitNL_cons_nl, splitNL_cons_nl, hs]
            show [] :: (x :: xs).dropLast <+: [] :: splitNL (a' ++ b)
            exact List.cons_prefix_cons.mpr ⟨rfl, ih⟩
      · cases hs : splitNL a' with
        | nil => exact absurd hs hne
        | cons x xs =>
            cases hs2 : splitNL (a' ++ b) with
            | nil => exact absurd hs2 (splitNL_ne_nil _)
            | cons y ys =>
                have ih := splitNL_dropLast_front a' b
                rw [hs, hs2] at ih
                rw [List.cons_append, splitNL_cons_ne c a' h, splitNL_cons_ne c (a' ++ b) h,
                  hs, hs2]
                cases xs with
                | nil =>
                    show ([] : List (List Char)) <+: (c :: y) :: ys
                    exact List.nil_prefix
                | cons x1 xs1 =>
                    have ih' : x :: (x1 :: xs1).dropLast <+: y :: ys := ih
                    obtain ⟨hxy, htl⟩ := List.cons_prefix_cons.mp ih'
                    subst hxy
                    show (c :: x) :: (x1 :: xs1).dropLast <+: (c :: x) :: ys
                    exact List.cons_prefix_cons.mpr ⟨rfl, htl⟩

set_option maxRecDepth 8000 in
/-- The prelude's `import matplotlib` line makes `matplotlib` an import
candidate of every built sandbox code. -/
theorem matplotlib_mem_importCandidates (rest : List Char) :
    "matplotlib" ∈ importCandidates (preludeHead.data ++ rest) := by
  have hmem : "import matplotlib".data ∈ (splitNL preludeHead.data).dropLast := by decide
  have hline : "import matplotlib".data ∈ splitNL (preludeHead.data ++ rest) :=
    List.IsPrefix.mem hmem (splitNL_dropLast_front preludeHead.data rest)
  unfold importCandidates
  exact List.mem_filterMap.mpr ⟨"import matplotlib".data, hline, by decide⟩

/-- Every built sandbox code starts with the fixed prelude head. -/
theorem buildSandboxCode_data (code : Option String) (task : Val) (inputs : Option Val)
    (results : VList) :
    ∃ rest, (buildSandboxCode code task inputs results).data = preludeHead.data ++ rest := by
  unfold buildSandboxCode
  cases code with
  | none => exact ⟨_, by simp only [String.data_append, List.append_assoc]; rfl⟩
  | some c =>
      by_cases hc : c = ""
      · simp only [hc, if_pos]
        exact ⟨_, by simp only [String.data_append, List.append_assoc]; rfl⟩
      · simp only [if_neg hc]
        exact ⟨_, by simp only [String.data_append, List.append_assoc]; rfl⟩

/-- Order-preserving de-duplication only drops elements already seen. -/
theorem mem_dedupGo :
    ∀ (l seen : List String) (x : String), x ∈ l → x ∈ seen ∨ x ∈ dedupGo seen l
  | [], _, _, hx => absurd hx (List.not_mem_nil _)
  | y :: rest, seen, x, hx => by
      by_cases hy : y ∈ seen
      · rcases List.mem_cons.mp hx with rfl | hx'
        · exact Or.inl hy
        · rcases mem_dedupGo rest seen x hx' with h | h
          · exact Or.inl h
          · right; simpa [dedupGo, hy] using h
      · rcases List.mem_cons.mp hx with rfl | hx'
        · right; simp [dedupGo, hy]
        · rcases mem_dedupGo rest (seen ++ [y]) x hx' with h | h
          · rcases List.mem_append.mp h with h' | h'
            · exact Or.inl h'
            · right
              have hxe : x = y := List.mem_singleton.mp h'
              subst hxe
              simp [dedupGo, hy]
          · right
            simp only [dedupGo, hy, if_false, List.mem_cons]
            exact Or.inr h

/-- The inferred package list of every built sandbox code contains
`matplotlib`. -/
theorem matplotlib_mem_inferPackages (code : String) (rest : List Char)
    (h : code.data = preludeHead.data ++ rest) : "matplotlib" ∈ inferPackages code := by
  have hm : "matplotlib" ∈ importCandidates code.data := by
    rw [h]; exact matplotlib_mem_importCandidates rest
  have hne : ¬code = "" := by
    intro he
    rw [he] at h
    have h3 : preludeHead.data ++ rest = [] := h.symm
    exact absurd (List.append_eq_nil.mp h3).1 (by decide)
  unfold inferPackages
  rw [if_neg hne]
  have hE : (importCandidates code.data).isEmpty = false := by
    cases hc : importCandidates code.data with
    | nil => rw [hc] at hm; exact absurd hm (List.not_mem_nil _)
    | cons a as => simp
  simp only [hE, Bool.false_eq_true, if_false]
  rcases mem_dedupGo _ [] _ hm with h' | h'
  · exact absurd h' (List.not_mem_nil _)
  · exact h'

/-- `_ensure_packages` keeps every already-present package. -/
theorem mem_ensureGo_left :
    ∀ (req merged normalized : List String) (x : String),
      x ∈ merged → x ∈ ensureGo merged normalized req
  | [], _, _, _, hx => hx
  | pkg :: rest, merged, normalized, x, hx => by
      by_cases hp : lowerStr pkg ∈ normalized
      · simpa [ensureGo, hp] using mem_ensureGo_left rest merged normalized x hx
      · simpa [ensureGo, hp] using
          mem_ensureGo_left rest (merged ++ [pkg]) (normalized ++ [lowerStr pkg]) x
            (List.mem_append_left _ hx)

/-- `_ensure_packages` covers every required package up to lower-casing,
provided the seen-set invariant holds. -/
theorem ensureGo_covers :
    ∀ (req merged normalized : List String) (r : String),
      r ∈ req →
      (∀ y ∈ normalized, ∃ p ∈ merged, lowerStr p = y) →
      ∃ p ∈ ensureGo merged normalized req, lowerStr p = lowerStr r
  | [], _, _, _, hr, _ => absurd hr (List.not_mem_nil _)
  | pkg :: rest, merged, normalized, r, hr, hinv => by
      by_cases hp : lowerStr pkg ∈ normalized
      · rcases List.mem_cons.mp hr with rfl | hr'
        · obtain ⟨p, hpm, hlow⟩ := hinv _ hp
          refine ⟨p, ?_, hlow⟩
          simpa [ensureGo, hp] using mem_ensureGo_left rest merged normalized p hpm
        · simpa [ensureGo, hp] using ensureGo_covers rest merged normalized r hr' hinv
      · have hinv' : ∀ y ∈ normalized ++ [lowerStr pkg],
            ∃ p ∈ merged ++ [pkg], lowerStr p = y := by
          intro y hy
          rcases List.mem_append.mp hy with hy' | hy'
          · obtain ⟨p, hpm, hlow⟩ := hinv y hy'
            exact ⟨p, List.mem_append_left _ hpm, hlow⟩
          · refine ⟨pkg, List.mem_append_right _ (List.mem_singleton_self _), ?_⟩
            rw [List.mem_singleton.mp hy']
        rcases List.mem_cons.mp hr with rfl | hr'
        · refine ⟨r, ?_, rfl⟩
          have hmem : r ∈ merged ++ [r] := List.mem_append_right _ (List.mem_singleton_self _)
          simpa [ensureGo, hp] using
            mem_ensureGo_left rest (merged ++ [r]) (normalized ++ [lowerStr r]) r hmem
        · obtain ⟨p, hpm, hlow⟩ :=
            ensureGo_covers rest (merged ++ [pkg]) (normalized ++ [lowerStr pkg]) r hr' hinv'
          exact ⟨p, by simpa [ensureGo, hp] using hpm, hlow⟩

/-- `_ensure_packages` covers every required package up to lower-casing. -/
theorem ensurePackages_covers (packages required : List String) (r : String)
    (hr : r ∈ required) :
    ∃ p ∈ ensurePackages packages required, lowerStr p = lowerStr r := by
  unfold ensurePackages
  apply ensureGo_covers required packages (packages.map lowerStr) r hr
  intro y hy
  rcases List.mem_map.mp hy with ⟨p, hp, rfl⟩
  exact ⟨p, hp, rfl⟩

/-- `_ensure_packages` never drops a requested package. -/
theorem mem_ensurePackages_left (packages required : List String) (x : String)
    (hx : x ∈ packages) : x ∈ ensurePackages packages required :=
  mem_ensureGo_left required packages _ x hx

set_option maxRecDepth 16000 in
/-- C10 counterexample: when the caller requests `MatPlotLib` (a case
variant), the merged set already contains it case-insensitively, so the
literal string `matplotlib` is absent from the final package list. -/
theorem c10_counterexample :
    finalRequiredPackages ["MatPlotLib"] (some "print(1)") .vnull none .nil "hi" =
      ["MatPlotLib"] ∧
    ("matplotlib" ∈ finalRequiredPackages ["MatPlotLib"] (some "print(1)") .vnull none .nil "hi"
      → False) := by
  have h : finalRequiredPackages ["MatPlotLib"] (some "print(1)") .vnull none .nil "hi" =
      ["MatPlotLib"] := rfl
  refine ⟨h, fun hm => ?_⟩
  rw [h, List.mem_singleton] at hm
  exact absurd hm (by decide)

/-- C10 (amended): the package list finally passed to the sandbox client
always contains `matplotlib` up to case — the prelude's unconditional
`import matplotlib` is picked up by package inference and merged in — and
the literal `matplotlib` whenever no case variant of it was requested. -/
theorem c10_matplotlib_always_present :
    ∀ (requested : List String) (code : Option String) (task : Val) (inputs : Option Val)
      (results : VList) (message : String),
      ∃ p ∈ finalRequiredPackages requested code task inputs results message,
        lowerStr p = "matplotlib" := by
  intro requested code task inputs results message
  obtain ⟨rest, hdata⟩ := buildSandboxCode_data code task inputs results
  have hm := matplotlib_mem_inferPackages _ rest hdata
  have hlowm : lowerStr "matplotlib" = "matplotlib" := by decide
  unfold finalRequiredPackages mergedPackages
  have hE : (inferPackages (buildSandboxCode code task inputs results)).isEmpty = false := by
    cases hc : inferPackages (buildSandboxCode code task inputs results) with
    | nil => rw [hc] at hm; exact absurd hm (List.not_mem_nil _)
    | cons a as => simp
  simp only [hE, Bool.not_false, if_true]
  obtain ⟨p, hp, hlow⟩ := ensurePackages_covers requested _ "matplotlib" hm
  rw [hlowm] at hlow
  by_cases hplot : needsPlotPackages message
  · simp only [hplot, if_true]
    exact ⟨p, mem_ensurePackages_left _ _ _ hp, hlow⟩
  · simp only [hplot, Bool.false_eq_true, if_false]
    exact ⟨p, hp, hlow⟩

end LlmOrch

